import Mathlib

/-!
Shallow embedding over ℚ of the CST airfoil construction module of the
cst-modeling repository (cst_modeling/foil.py), together with proofs about
the claims on that module.

The Python code calls a handful of opaque numeric library routines
(np.cos, np.sin, np.exp, np.log, np.sqrt, np.power with a real exponent,
np.pi, scipy cubic interpolation, and the dense least-squares solver).
Those are black-box numeric primitives for the module (the spec lists the
interpolation and the least-squares solver as external collaborators), so
the embedding takes them as a bundle of function parameters over ℚ and the
structural code of foil.py is translated literally around them.  Machine
floats are modelled by exact rationals.
-/

/-- Bundle of opaque numeric primitives used by foil.py. -/
structure NumPrims where
  cosq : ℚ → ℚ
  sinq : ℚ → ℚ
  expq : ℚ → ℚ
  logq : ℚ → ℚ
  sqrtq : ℚ → ℚ
  powq : ℚ → ℚ → ℚ
  piq : ℚ
  interpq : ℚ → List ℚ → List ℚ → ℚ
  lstsq : List (List ℚ) → List ℚ → List ℚ

/-- np.max on a list of rationals (0 on the empty list, where numpy errors). -/
def npmax : List ℚ → ℚ
  | [] => 0
  | v :: rest => rest.foldl max v

/-- np.min on a list of rationals (0 on the empty list, where numpy errors). -/
def npmin : List ℚ → ℚ
  | [] => 0
  | v :: rest => rest.foldl min v

/-- Scanner behind np.argmax: walks the list keeping the first index of the
running maximum together with its value. -/
def argmaxGo : List ℚ → ℕ → ℕ × ℚ → ℕ × ℚ
  | [], _, best => best
  | v :: rest, i, best =>
      if best.2 < v then argmaxGo rest (i + 1) (i, v) else argmaxGo rest (i + 1) best

/-- np.argmax together with the maximum value: first index of the maximum
(ties keep the earlier index, as numpy does).  (0, 0) on the empty list. -/
def argmaxPair : List ℚ → ℕ × ℚ
  | [] => (0, 0)
  | v :: rest => argmaxGo rest 1 (0, v)

/-- Binomial factor factorial(n)/factorial(i)/factorial(n-i) as used by the
CST shape function. -/
def binomQ (n i : ℕ) : ℚ :=
  (Nat.factorial n : ℚ) / (Nat.factorial i : ℚ) / (Nat.factorial (n - i) : ℚ)

/-- The quantity aa of clustcos: ((1-cos(a0*pi))/2)^beta. -/
def clustcos_aa (P : NumPrims) (a0 beta : ℚ) : ℚ :=
  P.powq ((1 - P.cosq (a0 * P.piq)) / 2) beta

/-- The quantity dd of clustcos: ((1-cos(a1*pi))/2)^beta - aa. -/
def clustcos_dd (P : NumPrims) (a0 a1 beta : ℚ) : ℚ :=
  P.powq ((1 - P.cosq (a1 * P.piq)) / 2) beta - clustcos_aa P a0 beta

/-- clustcos(i, nn, a0, a1, beta): clustered point distribution on [0, 1]. -/
def clustcos (P : NumPrims) (i nn : ℕ) (a0 a1 beta : ℚ) : ℚ :=
  let yt : ℚ := (i : ℚ) / ((nn : ℚ) - 1)
  let a := P.piq * (a0 * (1 - yt) + a1 * yt)
  (P.powq ((1 - P.cosq a) / 2) beta - clustcos_aa P a0 beta) / clustcos_dd P a0 a1 beta

/-- cst_curve(nn, coef, x, xn1, xn2): single CST curve.  Returns the pair
(x distribution, y values); the y endpoints are forced to 0 exactly.
When x is supplied, Python checks len(x) == nn and raises otherwise; the
theorems about this function carry that length condition as a hypothesis. -/
def cst_curve (P : NumPrims) (nn : ℕ) (coef : List ℚ) (xOpt : Option (List ℚ))
    (xn1 xn2 : ℚ) : List ℚ × List ℚ :=
  let xs := match xOpt with
    | none => (List.range nn).map (fun i => clustcos P i nn (79/10000) (24/25) 1)
    | some l => l
  let n_order := coef.length
  let y := (List.range nn).map (fun ip =>
    let xp := xs.getD ip 0
    let s_psi := (List.range n_order).foldl (fun acc i =>
      acc + coef.getD i 0 * binomQ (n_order - 1) i * xp ^ i * (1 - xp) ^ (n_order - 1 - i)) 0
    P.powq xp xn1 * P.powq (1 - xp) xn2 * s_psi)
  (xs, (y.set 0 0).set (nn - 1) 0)

/-! ### List access helper lemmas -/

theorem getD_set_self {α : Type} (l : List α) (i : ℕ) (v d : α) (h : i < l.length) :
    (l.set i v).getD i d = v := by
  induction l generalizing i with
  | nil => simp at h
  | cons a t ih =>
      cases i with
      | zero => rfl
      | succ j => exact ih j (by simpa using h)

theorem getD_set_ne {α : Type} (l : List α) (i j : ℕ) (v d : α) (h : i ≠ j) :
    (l.set i v).getD j d = l.getD j d := by
  induction l generalizing i j with
  | nil => rfl
  | cons a t ih =>
      cases i with
      | zero =>
          cases j with
          | zero => exact absurd rfl h
          | succ k => rfl
      | succ i' =>
          cases j with
          | zero => rfl
          | succ k => exact ih i' k (by omega)

theorem getD_map_lt {α β : Type} (f : α → β) (l : List α) (i : ℕ) (d : β) (d' : α)
    (h : i < l.length) : (l.map f).getD i d = f (l.getD i d') := by
  induction l generalizing i with
  | nil => simp at h
  | cons a t ih =>
      cases i with
      | zero => rfl
      | succ j => exact ih j (by simpa using h)

theorem getD_zipWith_lt {α β γ : Type} (f : α → β → γ) (a : List α) (b : List β)
    (i : ℕ) (d : γ) (da : α) (db : β) (h1 : i < a.length) (h2 : i < b.length) :
    (List.zipWith f a b).getD i d = f (a.getD i da) (b.getD i db) := by
  induction a generalizing b i with
  | nil => simp at h1
  | cons x xs ih =>
      cases b with
      | nil => simp at h2
      | cons y ys =>
          cases i with
          | zero => rfl
          | succ j => exact ih ys j (by simpa using h1) (by simpa using h2)

theorem getD_range_map {β : Type} (f : ℕ → β) (n i : ℕ) (d : β) (h : i < n) :
    (((List.range n).map f).getD i d) = f i := by
  rw [getD_map_lt f _ i d 0 (by simpa using h)]
  congr 1
  induction n generalizing i with
  | zero => omega
  | succ m ih =>
      rcases Nat.lt_or_ge i m with hi | hi
      · rw [List.range_succ, List.getD_append _ _ _ _ (by simpa using hi)]
        exact ih i hi
      · have : i = m := by omega
        subst this
        rw [List.range_succ]
        simp [List.getD_append_right, List.length_range]

theorem getD_eq_default_of_le {α : Type} (l : List α) (i : ℕ) (d : α)
    (h : l.length ≤ i) : l.getD i d = d := by
  induction l generalizing i with
  | nil => cases i <;> rfl
  | cons a t ih =>
      cases i with
      | zero => simp at h
      | succ j => exact ih j (by simpa using h)

theorem lt_length_of_getD_ne {α : Type} (l : List α) (i : ℕ) (d : α)
    (h : l.getD i d ≠ d) : i < l.length := by
  by_contra hc
  exact h (getD_eq_default_of_le l i d (by omega))

theorem zipWith_snd_of_length_eq {α β : Type} (a : List α) (b : List β)
    (h : a.length = b.length) : List.zipWith (fun _ y => y) a b = b := by
  induction a generalizing b with
  | nil => cases b with
      | nil => rfl
      | cons y ys => simp at h
  | cons x xs ih =>
      cases b with
      | nil => simp at h
      | cons y ys => simpa using ih ys (by simpa using h)

/-! ### argmax / max lemmas -/

theorem argmaxGo_snd (l : List ℚ) : ∀ (i : ℕ) (b : ℕ × ℚ),
    (argmaxGo l i b).2 = l.foldl max b.2 := by
  induction l with
  | nil => intro i b; rfl
  | cons v rest ih =>
      intro i b
      by_cases hv : b.2 < v
      · rw [argmaxGo, if_pos hv, ih, List.foldl_cons, max_eq_right (le_of_lt hv)]
      · rw [argmaxGo, if_neg hv, ih, List.foldl_cons, max_eq_left (le_of_not_lt hv)]

theorem argmaxGo_getD (l : List ℚ) : ∀ (full : List ℚ) (i : ℕ) (b : ℕ × ℚ),
    (∀ j, j < l.length → full.getD (i + j) 0 = l.getD j 0) →
    full.getD b.1 0 = b.2 →
    full.getD (argmaxGo l i b).1 0 = (argmaxGo l i b).2 := by
  induction l with
  | nil => intro full i b _ hb; exact hb
  | cons v rest ih =>
      intro full i b hfull hb
      have hv0 : full.getD i 0 = v := by
        have := hfull 0 (by simp)
        simpa using this
      have hrest : ∀ j, j < rest.length → full.getD (i + 1 + j) 0 = rest.getD j 0 := by
        intro j hj
        have := hfull (j + 1) (by simpa using Nat.succ_lt_succ hj)
        have harith : i + (j + 1) = i + 1 + j := by omega
        rw [harith] at this
        simpa using this
      by_cases hbv : b.2 < v
      · rw [argmaxGo, if_pos hbv]
        exact ih full (i + 1) (i, v) hrest hv0
      · rw [argmaxGo, if_neg hbv]
        exact ih full (i + 1) b hrest hb

theorem argmaxPair_getD (l : List ℚ) (h : l ≠ []) :
    l.getD (argmaxPair l).1 0 = npmax l := by
  cases l with
  | nil => exact absurd rfl h
  | cons v rest =>
      have h1 : (v :: rest).getD (argmaxGo rest 1 (0, v)).1 0 = (argmaxGo rest 1 (0, v)).2 := by
        apply argmaxGo_getD
        · intro j hj
          have : (1 : ℕ) + j = j + 1 := by omega
          rw [this]
          rfl
        · rfl
      rw [argmaxPair, h1, argmaxGo_snd]
      rfl

theorem foldl_max_map_mul (l : List ℚ) (c : ℚ) (hc : 0 ≤ c) :
    ∀ b : ℚ, (l.map (fun v => c * v)).foldl max (c * b) = c * l.foldl max b := by
  induction l with
  | nil => intro b; rfl
  | cons a t ih =>
      intro b
      rw [List.map_cons, List.foldl_cons, List.foldl_cons, ← mul_max_of_nonneg _ _ hc, ih]

theorem npmax_map_mul (l : List ℚ) (c : ℚ) (hc : 0 ≤ c) :
    npmax (l.map (fun v => c * v)) = c * npmax l := by
  cases l with
  | nil => simp [npmax]
  | cons v rest => exact foldl_max_map_mul rest c hc v

theorem zipWith_sub_map_mul (a b : List ℚ) (c : ℚ) :
    List.zipWith (· - ·) (a.map (fun v => c * v)) (b.map (fun v => c * v))
      = (List.zipWith (· - ·) a b).map (fun v => c * v) := by
  induction a generalizing b with
  | nil => rfl
  | cons x xs ih =>
      cases b with
      | nil => rfl
      | cons y ys =>
          simp only [List.map_cons, List.zipWith_cons_cons, ih]
          congr 1
          ring

/-! ### The airfoil construction functions of foil.py -/

/-- find_circle_3p(p1, p2, p3): circle through three points; none when the
points are collinear (Python prints a warning and returns None there).
Returns (R, (x0, y0)). -/
def find_circle_3p (P : NumPrims) (p1 p2 p3 : ℚ × ℚ) : Option (ℚ × ℚ × ℚ) :=
  let x21 := p2.1 - p1.1
  let y21 := p2.2 - p1.2
  let x32 := p3.1 - p2.1
  let y32 := p3.2 - p2.2
  if x21 * y32 - x32 * y21 = 0 then none
  else
    let xy21 := p2.1 * p2.1 - p1.1 * p1.1 + p2.2 * p2.2 - p1.2 * p1.2
    let xy32 := p3.1 * p3.1 - p2.1 * p2.1 + p3.2 * p3.2 - p2.2 * p2.2
    let y0 := (x32 * xy21 - x21 * xy32) / 2 * (y21 * x32 - y32 * x21)
    let x0 := (xy21 - 2 * y0 * y21) / (2 * x21)
    some (P.sqrtq ((p1.1 - x0) ^ 2 + (p1.2 - y0) ^ 2), x0, y0)

/-- cst_foil(nn, coef_upp, coef_low, x, t, tail): airfoil assembly.
Returns (x, y_upp, y_low, t0, R0).  The leading-edge-radius circle fit uses
the cubic-interpolation primitive; when the three points are collinear the
Python code would crash unpacking None, modelled here by a junk radius 0. -/
def cst_foil (P : NumPrims) (nn : ℕ) (coefU coefL : List ℚ) (xOpt : Option (List ℚ))
    (t : Option ℚ) (tail : ℚ) : List ℚ × List ℚ × List ℚ × ℚ × ℚ :=
  let xs := (cst_curve P nn coefU xOpt (1/2) 1).1
  let yuR := (cst_curve P nn coefU xOpt (1/2) 1).2
  let ylR := (cst_curve P nn coefL xOpt (1/2) 1).2
  let thick := List.zipWith (· - ·) yuR ylR
  let it := (argmaxPair thick).1
  let t0 := thick.getD it 0
  let yu1 := match t with
    | none => yuR
    | some tv => yuR.map (fun v => (tv - tail * xs.getD it 0) / t0 * v)
  let yl1 := match t with
    | none => ylR
    | some tv => ylR.map (fun v => (tv - tail * xs.getD it 0) / t0 * v)
  let t1 := match t with
    | none => t0
    | some tv => tv
  let yu2 := List.zipWith (fun xi yi => yi + 1/2 * tail * xi) xs yu1
  let yl2 := List.zipWith (fun xi yi => yi - 1/2 * tail * xi) xs yl1
  let yuRLE := P.interpq (1/200) xs yu2
  let ylRLE := P.interpq (1/200) xs yl2
  let R0 := match find_circle_3p P (0, 0) (1/200, yuRLE) (1/200, ylRLE) with
    | some rc => rc.1
    | none => 0
  (xs, yu2, yl2, t1, R0)

/-- The natural (unconstrained) maximum thickness the CST curves of an airfoil
would have before the thickness constraint and the tail are applied; this is
the t0 cst_foil measures in its step 2. -/
def cst_foil_nat_thick (P : NumPrims) (nn : ℕ) (coefU coefL : List ℚ)
    (xOpt : Option (List ℚ)) : ℚ :=
  npmax (List.zipWith (· - ·) (cst_curve P nn coefU xOpt (1/2) 1).2
    (cst_curve P nn coefL xOpt (1/2) 1).2)

/-- curve_curvature(x, y): per-point curvature via the osculating circle of
each interior triple; boundary points copy the nearest interior value.
Python raises for fewer than 3 points; the embedding returns [] there and
the theorems carry the length precondition. -/
def curve_curvature (P : NumPrims) (x y : List ℚ) : List ℚ :=
  let nn := x.length
  if nn < 3 then []
  else
    let inner := (List.range (nn - 2)).map (fun j =>
      let i := j + 1
      let x1 := x.getD (i - 1) 0
      let y1 := y.getD (i - 1) 0
      let x2 := x.getD i 0
      let y2 := y.getD i 0
      let x3 := x.getD (i + 1) 0
      let y3 := y.getD (i + 1) 0
      let a := P.sqrtq ((x1 - x2) ^ 2 + (y1 - y2) ^ 2)
      let b := P.sqrtq ((x2 - x3) ^ 2 + (y2 - y3) ^ 2)
      let c := P.sqrtq ((x3 - x1) ^ 2 + (y3 - y1) ^ 2)
      let p := (a + b + c) / 2
      let t := p * (p - a) * (p - b) * (p - c)
      let R := a * b * c
      let curv := if R ≤ 1 / 10 ^ 12 then 0 else 4 * P.sqrtq t / R
      if (x2 - x1) * (y3 - y1) < (y2 - y1) * (x3 - x1) then -curv else curv)
    (inner.headD 0 :: inner) ++ [inner.getLastD 0]

/-- foil_tcc(x, yu, yl): thickness, upper/lower curvature and camber arrays
(the info printout is ignored). -/
def foil_tcc (P : NumPrims) (x yu yl : List ℚ) : List ℚ × List ℚ × List ℚ × List ℚ :=
  ((List.range x.length).map (fun i => yu.getD i 0 - yl.getD i 0),
   curve_curvature P x yu,
   curve_curvature P x yl,
   (List.range x.length).map (fun i => (yu.getD i 0 + yl.getD i 0) / 2))

/-- The conditional element assignment `if cond: a[i] = 1` of Python on a
flag list. -/
def updIf (c : Prop) [Decidable c] (l : List ℕ) (i : ℕ) : List ℕ :=
  if c then l.set i 1 else l

/-- check_valid(x, yu, yl, RLE): the 7 geometric sanity rules, written into a
flag array of n_rule = 10 entries initialised to 0 (the Python code sets
n_rule = 10 although only 7 rules exist). -/
def check_valid (P : NumPrims) (x yu yl : List ℚ) (RLE : ℚ) : List ℕ :=
  let thickness := (foil_tcc P x yu yl).1
  let curv_u := (foil_tcc P x yu yl).2.1
  let curv_l := (foil_tcc P x yu yl).2.2.1
  let camber := (foil_tcc P x yu yl).2.2.2
  let nn := x.length
  let rule_invalid : List ℕ := List.replicate 10 0
  let r1 := updIf (npmin thickness < 0) rule_invalid 0
  let i_max := (argmaxPair thickness).1
  let t0 := thickness.getD i_max 0
  let x_max := x.getD i_max 0
  let r2 := updIf (x_max < 15/100 ∨ x_max > 75/100) r1 1
  let n_extreme := (List.range (nn - 2)).countP (fun i =>
    decide ((thickness.getD (i + 2) 0 - thickness.getD (i + 1) 0) *
      (thickness.getD i 0 - thickness.getD (i + 1) 0) ≥ 0))
  let r3 := updIf (n_extreme > 2) r2 2
  let cur_max_u := (List.range nn).foldl (fun m i =>
    if x.getD i 0 < 1/10 then m else max m |curv_u.getD i 0|) 0
  let cur_max_l := (List.range nn).foldl (fun m i =>
    if x.getD i 0 < 1/10 then m else max m |curv_l.getD i 0|) 0
  let r4 := updIf (cur_max_u > 5 ∨ cur_max_l > 5) r3 3
  let cam_max := (List.range nn).foldl (fun m i =>
    if x.getD i 0 < 2/10 ∨ x.getD i 0 > 7/10 then m else max m |camber.getD i 0|) 0
  let r5 := updIf (cam_max > 25/1000) r4 4
  let r6a := updIf (RLE > 0 ∧ RLE < 5/1000) r5 5
  let r6 := updIf (RLE > 0 ∧ RLE / t0 < 1/10) r6a 5
  let ii := nn / 10 + 1
  let a0 := t0 / x_max
  let au := yu.getD ii 0 / x.getD ii 0 / a0
  let al := -(yl.getD ii 0) / x.getD ii 0 / a0
  updIf (au < 1 ∨ al < 1) r6 6

/-- foil_increment(x, yu, yl, coef_upp, coef_low, t): add incremental CST
curves to a baseline airfoil, removing and re-adding the tail wedge around
the addition, with an optional thickness constraint. -/
def foil_increment (P : NumPrims) (x yu yl coefU coefL : List ℚ) (t : Option ℚ) :
    List ℚ × List ℚ :=
  let nn := x.length
  let yu_i := (cst_curve P nn coefU (some x) (1/2) 1).2
  let yl_i := (cst_curve P nn coefL (some x) (1/2) 1).2
  let tail := yu.getD (yu.length - 1) 0 - yl.getD (yl.length - 1) 0
  let yu1 := if tail > 0 then List.zipWith (fun yi xi => yi - 1/2 * tail * xi) yu x else yu
  let yl1 := if tail > 0 then List.zipWith (fun yi xi => yi + 1/2 * tail * xi) yl x else yl
  let yu2 := List.zipWith (· + ·) yu1 yu_i
  let yl2 := List.zipWith (· + ·) yl1 yl_i
  let thick := List.zipWith (· - ·) yu2 yl2
  let it := (argmaxPair thick).1
  let t0 := thick.getD it 0
  let yu3 := match t with
    | none => yu2
    | some tv => yu2.map (fun v => (tv - tail * x.getD it 0) / t0 * v)
  let yl3 := match t with
    | none => yl2
    | some tv => yl2.map (fun v => (tv - tail * x.getD it 0) / t0 * v)
  let yu4 := if tail > 0 then List.zipWith (fun yi xi => yi + 1/2 * tail * xi) yu3 x else yu3
  let yl4 := if tail > 0 then List.zipWith (fun yi xi => yi - 1/2 * tail * xi) yl3 x else yl3
  (yu4, yl4)

/-- The maximum thickness foil_increment measures after adding the
incremental curves, in the situation where the trailing-edge gap of the
baseline is zero (so that no tail wedge is removed first). -/
def foil_increment_tnew (P : NumPrims) (x yu yl coefU coefL : List ℚ) : ℚ :=
  npmax (List.zipWith (· - ·)
    (List.zipWith (· + ·) yu (cst_curve P x.length coefU (some x) (1/2) 1).2)
    (List.zipWith (· + ·) yl (cst_curve P x.length coefL (some x) (1/2) 1).2))

/-- Bump kinds of add_bump: Gaussian and Hicks-Henne. -/
inductive BumpKind where
  | G : BumpKind
  | H : BumpKind

/-- One pass of the Hicks-Henne span scan at a given power: walks the 201
uniform samples xx = i*0.005 keeping the first crossing of 1% of the peak
height on each side of xc, and returns x2 - x1 (with x2 = 1 when the right
crossing is never found). -/
def hh_span (P : NumPrims) (xc s0 hm : ℚ) (pw : ℕ) : ℚ :=
  let scan := (List.range 201).foldl (fun (p : ℚ × ℚ) i =>
    let xx : ℚ := (i : ℚ) * (1/200)
    let yy := hm * (P.sinq (P.piq * P.powq xx s0)) ^ pw
    (if yy > 1/100 * hm ∧ p.1 < 0 ∧ xx < xc then xx else p.1,
     if yy < 1/100 * hm ∧ p.2 < 0 ∧ xx > xc then xx else p.2)) (-1, -1)
  (if scan.2 < 0 then 1 else scan.2) - scan.1

/-- The while loop of the Hicks-Henne power search: while Pow < 100 and
span > s, recompute the span at the current power and increment the power.
The fuel argument (called with 100) dominates the loop bound Pow < 100. -/
def hh_go (F : ℕ → ℚ) (s : ℚ) : ℕ → ℕ → ℚ → ℕ
  | 0, pw, _ => pw
  | fuel + 1, pw, span => if pw < 100 ∧ span > s then hh_go F s fuel (pw + 1) (F pw) else pw

/-- The power that the Hicks-Henne branch of add_bump actually applies. -/
def hh_pow (P : NumPrims) (xc s0 hm s : ℚ) : ℕ :=
  hh_go (fun pw => hh_span P xc s0 hm pw) s 100 1 1

/-- The Gaussian branch of add_bump: y[i] += h*exp(-(x[i]-xc)^2/(2*sigma^2))
with the truncation-compensated sigma near the domain edges. -/
def add_bump_gaussian (P : NumPrims) (x y : List ℚ) (xc h s : ℚ) : List ℚ :=
  (List.range x.length).map (fun i =>
    y.getD i 0 + h * P.expq (-(x.getD i 0 - xc) ^ 2 / 2 /
      (if xc - s < 0 ∧ x.getD i 0 < xc then xc / (7/2)
       else if xc + s > 1 ∧ x.getD i 0 > xc then (1 - xc) / (7/2)
       else s / 6) ^ 2))

/-- The Hicks-Henne branch of add_bump: exponent search via hh_pow, then
y[i] += h*sin(pi*x[i]^s0)^Pow with s0 = ln(0.5)/ln(xc). -/
def add_bump_hicks (P : NumPrims) (x y : List ℚ) (xc h s : ℚ) : List ℚ :=
  (List.range x.length).map (fun i =>
    y.getD i 0 + h * (P.sinq (P.piq * P.powq (x.getD i 0)
      (P.logq (1/2) / P.logq xc))) ^ hh_pow P xc (P.logq (1/2) / P.logq xc) |h| s)

/-- add_bump(x, y, xc, h, s, kind): add a Gaussian or Hicks-Henne bump to a
curve.  Returns the input y unchanged (after a logged warning) when the
center xc is outside (0,1). -/
def add_bump (P : NumPrims) (x y : List ℚ) (xc h s : ℚ) (kind : BumpKind) : List ℚ :=
  if xc ≤ 0 ∨ 1 ≤ xc then y
  else
    match kind with
    | BumpKind.G => add_bump_gaussian P x y xc h s
    | BumpKind.H => add_bump_hicks P x y xc h s

/-- fit_curve(x, y, n_order, xn1, xn2): least-squares CST coefficient
recovery, via the opaque lstsq primitive. -/
def fit_curve (P : NumPrims) (x y : List ℚ) (n_order : ℕ) (xn1 xn2 : ℚ) : List ℚ :=
  let nn := x.length
  let L := x.getD (nn - 1) 0 - x.getD 0 0
  let x_ := (List.range nn).map (fun ip => (x.getD ip 0 - x.getD 0 0) / L)
  let b := (List.range nn).map (fun ip =>
    y.getD ip 0 - x_.getD ip 0 * y.getD (y.length - 1) 0)
  let A := (List.range nn).map (fun ip =>
    (List.range n_order).map (fun i =>
      binomQ (n_order - 1) i * (x_.getD ip 0) ^ i * (1 - x_.getD ip 0) ^ (n_order - 1 - i)
        * (P.powq (x_.getD ip 0) xn1 * P.powq (1 - x_.getD ip 0) xn2)))
  P.lstsq A b

/-- cst_foil_fit(xu, yu, xl, yl, n_order). -/
def cst_foil_fit (P : NumPrims) (xu yu xl yl : List ℚ) (n_order : ℕ) :
    List ℚ × List ℚ :=
  (fit_curve P xu yu n_order (1/2) 1, fit_curve P xl yl n_order (1/2) 1)

/-- The per-bump body shared by the scalar and list branches of
foil_bump_modify: choose the kind from xc, bump the selected side, locate the
new thickness argmax, and rescale - on the upper side the lower surface is
scaled in place, on the lower side the code assigns the scaled UPPER surface
to yl_new (this mirrors foil.py literally). -/
def foil_bump_step (P : NumPrims) (x : List ℚ) (t0 xc h s : ℚ) (side : Int)
    (cur : List ℚ × List ℚ) : List ℚ × List ℚ :=
  let kind := if xc < 1/10 ∨ xc > 9/10 then BumpKind.H else BumpKind.G
  let yu_new := if side > 0 then add_bump P x cur.1 xc (h * t0) s kind else cur.1
  let yl_new := if side > 0 then cur.2 else add_bump P x cur.2 xc (h * t0) s kind
  let it := (argmaxPair (List.zipWith (· - ·) yu_new yl_new)).1
  let tu := |yu_new.getD it 0|
  let tl := |yl_new.getD it 0|
  if side > 0 then (yu_new, yl_new.map (fun v => (t0 - tu) / tl * v))
  else (yu_new, yu_new.map (fun v => (t0 - tl) / tu * v))

/-- foil_bump_modify(x, yu, yl, xc, h, s, side, n_order) for a single bump
(the scalar branch of the Python function). -/
def foil_bump_modify (P : NumPrims) (x yu yl : List ℚ) (xc h s : ℚ) (side : Int)
    (n_order : ℕ) : List ℚ × List ℚ :=
  let t0 := npmax (List.zipWith (· - ·) yu yl)
  let r := foil_bump_step P x t0 xc h s side (yu, yl)
  if n_order > 0 then
    let tail := yu.getD (yu.length - 1) 0 - yl.getD (yl.length - 1) 0
    let fit := cst_foil_fit P x r.1 x r.2 n_order
    let c := cst_foil P x.length fit.1 fit.2 (some x) (some t0) tail
    (c.2.1, c.2.2.1)
  else r

/-- foil_bump_modify for a list of bumps (the list branch of the Python
function): the same per-bump body folded over the bump specifications, with
t0 measured once on the incoming airfoil. -/
def foil_bump_modify_list (P : NumPrims) (x yu yl : List ℚ)
    (bumps : List (ℚ × ℚ × ℚ × Int)) (n_order : ℕ) : List ℚ × List ℚ :=
  let t0 := npmax (List.zipWith (· - ·) yu yl)
  let r := bumps.foldl (fun cur b => foil_bump_step P x t0 b.1 b.2.1 b.2.2.1 b.2.2.2 cur)
    (yu, yl)
  if n_order > 0 then
    let tail := yu.getD (yu.length - 1) 0 - yl.getD (yl.length - 1) 0
    let fit := cst_foil_fit P x r.1 x r.2 n_order
    let c := cst_foil P x.length fit.1 fit.2 (some x) (some t0) tail
    (c.2.1, c.2.2.1)
  else r

/-- The axis='Z' case of rotate(x, y, z, angle, origin, axis), the only case
transform uses (the z curve is passed as None there and left untouched). -/
def rotate_z (P : NumPrims) (x y : List ℚ) (angle ox oy : ℚ) : List ℚ × List ℚ :=
  let cc := P.cosq (angle / 180 * P.piq)
  let ss := P.sinq (angle / 180 * P.piq)
  ((List.range x.length).map (fun i =>
      ox + (x.getD i 0 - ox) * cc - (y.getD i 0 - oy) * ss),
   (List.range x.length).map (fun i =>
      oy + (x.getD i 0 - ox) * ss + (y.getD i 0 - oy) * cc))

/-- transform(x, yu, yl, scale, rot, x0, y0, dx, dy, proj): chord scaling,
twist rotation and leading-edge translation of a unit airfoil.
Returns (xu_new, xl_new, yu_new, yl_new). -/
def transform (P : NumPrims) (x yu yl : List ℚ) (scale : ℚ) (rot : Option ℚ)
    (x0 y0 : Option ℚ) (dx dy : ℚ) (proj : Bool) :
    List ℚ × List ℚ × List ℚ × List ℚ :=
  let xu1 := x.map (fun v => dx + v)
  let xl1 := x.map (fun v => dx + v)
  let yu1 := yu.map (fun v => dy + v)
  let yl1 := yl.map (fun v => dy + v)
  let x0v := match x0 with
    | none => xu1.getD 0 0
    | some v => v
  let y0v := match y0 with
    | none => (yu1.getD 0 0 + yl1.getD 0 0) / 2
    | some v => v
  let rr := match rot with
    | some ang => if proj then P.cosq (ang / 180 * P.piq) else 1
    | none => 1
  let xu2 := xu1.map (fun v => x0v + (v - x0v) * scale / rr)
  let xl2 := xl1.map (fun v => x0v + (v - x0v) * scale / rr)
  let yu2 := yu1.map (fun v => y0v + (v - y0v) * scale / rr)
  let yl2 := yl1.map (fun v => y0v + (v - y0v) * scale / rr)
  match rot with
  | some ang =>
      ((rotate_z P xu2 yu2 ang x0v y0v).1, (rotate_z P xl2 yl2 ang x0v y0v).1,
       (rotate_z P xu2 yu2 ang x0v y0v).2, (rotate_z P xl2 yl2 ang x0v y0v).2)
  | none => (xu2, xl2, yu2, yl2)

/-- The Section entity of foil.py: placement fields, CST coefficients, the
derived unit airfoil, the derived leading-edge radius, the derived 3D point
sequence, and the optional incremental-refinement layer. -/
@[ext] structure Section where
  xLE : ℚ
  yLE : ℚ
  zLE : ℚ
  chord : ℚ
  twist : ℚ
  thick : Option ℚ
  tail : ℚ
  RLE : ℚ
  cst_u : List ℚ
  cst_l : List ℚ
  xx : List ℚ
  yu : List ℚ
  yl : List ℚ
  x : List ℚ
  y : List ℚ
  z : List ℚ
  refine_fixed_t : Bool
  refine_u : Option (List ℚ)
  refine_l : Option (List ℚ)
deriving DecidableEq

/-- The body of Section.foil after its cst_foil call (refinement, optional
x-flip, 3D transform and point assembly), lambda-lifted over the fields it
reads and over the cst_foil result r, so that congruence reasoning about
Section.foil need not unfold the geometry.  Returns
(xx, yu, yl, thick, RLE, x, y, z). -/
def section_foil_core (P : NumPrims) (xLE yLE zLE chord twist : ℚ) (rft : Bool)
    (refu refl : Option (List ℚ)) (nn : ℕ) (flip_x : Bool)
    (r : List ℚ × List ℚ × List ℚ × ℚ × ℚ) :
    List ℚ × List ℚ × List ℚ × ℚ × ℚ × List ℚ × List ℚ × List ℚ :=
  let xx0 := r.1
  let yu0 := r.2.1
  let yl0 := r.2.2.1
  let thick0 := r.2.2.2.1
  let RLE0 := r.2.2.2.2
  let t0 : Option ℚ := if rft then some thick0 else none
  let yu1 := match refu, refl with
    | some ru, some rl => (foil_increment P xx0 yu0 yl0 ru rl t0).1
    | _, _ => yu0
  let yl1 := match refu, refl with
    | some ru, some rl => (foil_increment P xx0 yu0 yl0 ru rl t0).2
    | _, _ => yl0
  let xx1 := if flip_x then xx0.reverse else xx0
  let tr := transform P xx1 yu1 yl1 chord (some twist) none none xLE yLE true
  let xu_ := tr.1
  let xl_ := tr.2.1
  let yu_ := tr.2.2.1
  let yl_ := tr.2.2.2
  let x3 := (List.range nn).map (fun i => xl_.getD (xl_.length - 1 - i) 0)
    ++ (List.range' 1 (nn - 1)).map (fun i => xu_.getD i 0)
  let y3 := (List.range nn).map (fun i => yl_.getD (yl_.length - 1 - i) 0)
    ++ (List.range' 1 (nn - 1)).map (fun i => yu_.getD i 0)
  let z3 := List.replicate (nn + (nn - 1)) zLE
  (xx1, yu1, yl1, thick0, RLE0, x3, y3, z3)

/-- Section.foil(cst_u, cst_l, nn, flip_x): (re)compute the unit airfoil,
the realized thickness, the leading-edge radius, apply the optional
incremental refinement, and derive the 3D point sequence. -/
def Section.foil (P : NumPrims) (s : Section) (cstU cstL : Option (List ℚ))
    (nn : ℕ) (flip_x : Bool) : Section :=
  let cu := match cstU, cstL with
    | some u, some _ => u
    | _, _ => s.cst_u
  let cl := match cstU, cstL with
    | some _, some l => l
    | _, _ => s.cst_l
  let core := section_foil_core P s.xLE s.yLE s.zLE s.chord s.twist s.refine_fixed_t
    s.refine_u s.refine_l nn flip_x (cst_foil P nn cu cl none s.thick s.tail)
  { s with
    cst_u := cu
    cst_l := cl
    xx := core.1
    yu := core.2.1
    yl := core.2.2.1
    thick := some core.2.2.2.1
    RLE := core.2.2.2.2.1
    x := core.2.2.2.2.2.1
    y := core.2.2.2.2.2.2.1
    z := core.2.2.2.2.2.2.2 }

/-! ### Concrete primitive bundles for witnesses and counterexamples -/

/-- A concrete primitive bundle: cos is modelled by the linear map
q ↦ 1 - 2q (so (1-cos(q))/2 = q and pi = 1 makes clustcos the identity
spacing), pow by first-argument projection, exp by the constant 1, and the
remaining black boxes by constants.  Any bundle is admissible since the
Python primitives are opaque to the module. -/
def P0 : NumPrims :=
  { cosq := fun q => 1 - 2 * q
    sinq := fun _ => 0
    expq := fun _ => 1
    logq := fun _ => 1
    sqrtq := fun _ => 0
    powq := fun a _ => a
    piq := 1
    interpq := fun _ _ _ => 0
    lstsq := fun _ _ => [] }

/-- A tent map on [0,1] peaking at 1/2, used as a concrete stand-in for
sin(pi*x) in the Hicks-Henne scan. -/
def tentQ (q : ℚ) : ℚ := if q ≤ 1/2 then 2 * q else 2 * (1 - q)

/-- P0 with the sine primitive replaced by the tent map. -/
def P1 : NumPrims :=
  { P0 with sinq := tentQ }

/-! ### Structural lemmas about cst_curve and clustcos -/

theorem getD_double_set_head (l : List ℚ) (n : ℕ) (h : l.length = n) (hn : 1 ≤ n) :
    ((l.set 0 0).set (n - 1) 0).getD 0 0 = 0 := by
  rcases Nat.eq_or_lt_of_le hn with h1 | h1
  · have : n - 1 = 0 := by omega
    rw [this]
    exact getD_set_self _ 0 0 0 (by simp; omega)
  · rw [getD_set_ne _ _ _ _ _ (by omega)]
    exact getD_set_self _ 0 0 0 (by omega)

theorem getD_double_set_last (l : List ℚ) (n : ℕ) (h : l.length = n) (hn : 1 ≤ n) :
    ((l.set 0 0).set (n - 1) 0).getD (n - 1) 0 = 0 :=
  getD_set_self _ _ 0 0 (by simp [h]; omega)

theorem cst_curve_y_length (P : NumPrims) (nn : ℕ) (coef : List ℚ)
    (xOpt : Option (List ℚ)) (xn1 xn2 : ℚ) :
    (cst_curve P nn coef xOpt xn1 xn2).2.length = nn := by
  simp [cst_curve]

theorem cst_curve_x_length (P : NumPrims) (nn : ℕ) (coef : List ℚ)
    (xOpt : Option (List ℚ)) (xn1 xn2 : ℚ)
    (hx : ∀ xs, xOpt = some xs → xs.length = nn) :
    (cst_curve P nn coef xOpt xn1 xn2).1.length = nn := by
  cases xOpt with
  | none => simp [cst_curve]
  | some xs => simpa [cst_curve] using hx xs rfl

theorem cst_curve_x_none (P : NumPrims) (nn : ℕ) (coef : List ℚ) (xn1 xn2 : ℚ) :
    (cst_curve P nn coef none xn1 xn2).1
      = (List.range nn).map (fun i => clustcos P i nn (79/10000) (24/25) 1) := rfl

theorem cst_curve_x_some (P : NumPrims) (nn : ℕ) (coef xs : List ℚ) (xn1 xn2 : ℚ) :
    (cst_curve P nn coef (some xs) xn1 xn2).1 = xs := rfl

theorem cst_curve_getD_head (P : NumPrims) (nn : ℕ) (coef : List ℚ)
    (xOpt : Option (List ℚ)) (xn1 xn2 : ℚ) (h : 1 ≤ nn) :
    (cst_curve P nn coef xOpt xn1 xn2).2.getD 0 0 = 0 := by
  apply getD_double_set_head _ nn _ h
  simp

theorem cst_curve_getD_last (P : NumPrims) (nn : ℕ) (coef : List ℚ)
    (xOpt : Option (List ℚ)) (xn1 xn2 : ℚ) (h : 1 ≤ nn) :
    (cst_curve P nn coef xOpt xn1 xn2).2.getD (nn - 1) 0 = 0 := by
  apply getD_double_set_last _ nn _ h
  simp

theorem clustcos_zero (P : NumPrims) (nn : ℕ) (a0 a1 beta : ℚ) :
    clustcos P 0 nn a0 a1 beta = 0 := by
  simp only [clustcos, Nat.cast_zero, zero_div, mul_zero, add_zero, sub_zero, mul_one]
  rw [mul_comm P.piq a0]
  rw [show P.powq ((1 - P.cosq (a0 * P.piq)) / 2) beta = clustcos_aa P a0 beta from rfl]
  rw [sub_self, zero_div]

theorem clustcos_last (P : NumPrims) (nn : ℕ) (a0 a1 beta : ℚ) (h2 : 2 ≤ nn)
    (hdd : clustcos_dd P a0 a1 beta ≠ 0) :
    clustcos P (nn - 1) nn a0 a1 beta = 1 := by
  unfold clustcos
  have hcast : (((nn - 1 : ℕ)) : ℚ) = (nn : ℚ) - 1 := by
    have : 1 ≤ nn := by omega
    push_cast [this]
    ring
  have hne : ((nn : ℚ) - 1) ≠ 0 := by
    have : (2 : ℚ) ≤ (nn : ℚ) := by exact_mod_cast h2
    linarith
  simp only [clustcos, hcast, div_self hne, sub_self, mul_zero, zero_add, mul_one]
  rw [mul_comm P.piq a1]
  rw [show P.powq ((1 - P.cosq (a1 * P.piq)) / 2) beta - clustcos_aa P a0 beta
    = clustcos_dd P a0 a1 beta from rfl]
  exact div_self hdd

theorem default_dist_getD_zero (P : NumPrims) (nn : ℕ) (h : 0 < nn) :
    ((List.range nn).map (fun i => clustcos P i nn (79/10000) (24/25) 1)).getD 0 0 = 0 := by
  rw [getD_range_map _ _ _ _ h]
  exact clustcos_zero P nn _ _ _

theorem default_dist_getD_last (P : NumPrims) (nn : ℕ) (h2 : 2 ≤ nn)
    (hdd : clustcos_dd P (79/10000) (24/25) 1 ≠ 0) :
    ((List.range nn).map (fun i => clustcos P i nn (79/10000) (24/25) 1)).getD (nn - 1) 0
      = 1 := by
  rw [getD_range_map _ _ _ _ (by omega)]
  exact clustcos_last P nn _ _ _ h2 hdd

/-! ### Claim C6 -/

/-- Claim C6: for every point count nn ≥ 2, every coefficient list, and every
x-distribution (supplied with matching length, or the default), cst_curve
returns y with y[0] = 0 and y[last] = 0 exactly, regardless of the
coefficient values. -/
theorem cst_curve_endpoints_zero (P : NumPrims) (nn : ℕ) (coef : List ℚ)
    (xOpt : Option (List ℚ)) (xn1 xn2 : ℚ) (hnn : 2 ≤ nn)
    (hx : ∀ xs, xOpt = some xs → xs.length = nn) :
    (cst_curve P nn coef xOpt xn1 xn2).2.getD 0 0 = 0 ∧
    (cst_curve P nn coef xOpt xn1 xn2).2.getD (nn - 1) 0 = 0 :=
  ⟨cst_curve_getD_head P nn coef xOpt xn1 xn2 (by omega),
   cst_curve_getD_last P nn coef xOpt xn1 xn2 (by omega)⟩

/-- Witness for C6 at a concrete input. -/
theorem cst_curve_endpoints_zero_witness :
    (cst_curve P0 5 [1/10, 2/10, 15/100, 1/10] (some [0, 1/4, 1/2, 3/4, 1]) (1/2) 1).2.getD 0 0 = 0 ∧
    (cst_curve P0 5 [1/10, 2/10, 15/100, 1/10] (some [0, 1/4, 1/2, 3/4, 1]) (1/2) 1).2.getD 4 0 = 0 :=
  cst_curve_endpoints_zero P0 5 [1/10, 2/10, 15/100, 1/10] (some [0, 1/4, 1/2, 3/4, 1])
    (1/2) 1 (by omega) (fun xs h => by cases h; rfl)

/-! ### Claim C9 -/

/-- Claim C9: for every curve (x, y) and every bump center xc with xc ≤ 0 or
xc ≥ 1, add_bump returns the input curve y unchanged (a warning is logged,
no exception is raised). -/
theorem add_bump_invalid_center_noop (P : NumPrims) (x y : List ℚ) (xc h s : ℚ)
    (kind : BumpKind) (hxc : xc ≤ 0 ∨ 1 ≤ xc) :
    add_bump P x y xc h s kind = y := by
  rw [add_bump.eq_def, if_pos hxc]

/-- Witness for C9 at xc = 0. -/
theorem add_bump_invalid_center_noop_witness :
    add_bump P0 [0, 1/2, 1] [0, 1/10, 0] 0 1 (1/5) BumpKind.G = [0, 1/10, 0] :=
  add_bump_invalid_center_noop P0 [0, 1/2, 1] [0, 1/10, 0] 0 1 (1/5) BumpKind.G
    (Or.inl le_rfl)

/-! ### Claim C10 -/

/-- Claim C10: for every curve, center xc in (0,1), nonzero height h and any
span s, the Gaussian branch of add_bump changes the y value at every sample
point (the added term h*exp(...) is never zero, since exp is positive), so
in particular the endpoints are perturbed and a closed leading edge is not
preserved. -/
theorem add_bump_gaussian_perturbs_all_points (P : NumPrims) (x y : List ℚ)
    (xc h s : ℚ) (hexp : ∀ q, 0 < P.expq q) (hh : h ≠ 0)
    (h0 : 0 < xc) (h1 : xc < 1) :
    (add_bump P x y xc h s BumpKind.G).length = x.length ∧
    ∀ i, i < x.length →
      (add_bump P x y xc h s BumpKind.G).getD i 0 ≠ y.getD i 0 := by
  have hguard : ¬ (xc ≤ 0 ∨ 1 ≤ xc) := by push_neg; exact ⟨h0, h1⟩
  have hG : add_bump P x y xc h s BumpKind.G = add_bump_gaussian P x y xc h s := by
    rw [add_bump.eq_def, if_neg hguard]
  rw [hG, add_bump_gaussian]
  refine ⟨by simp, ?_⟩
  intro i hi
  rw [getD_range_map _ _ _ _ hi]
  have hne : h * P.expq (-(x.getD i 0 - xc) ^ 2 / 2 /
      (if xc - s < 0 ∧ x.getD i 0 < xc then xc / (7/2)
       else if xc + s > 1 ∧ x.getD i 0 > xc then (1 - xc) / (7/2)
       else s / 6) ^ 2) ≠ 0 :=
    mul_ne_zero hh (ne_of_gt (hexp _))
  intro hcontra
  apply hne
  linarith [hcontra]

/-- Witness for C10: a Gaussian bump on the zero curve moves the leading
edge off zero. -/
theorem add_bump_gaussian_perturbs_all_points_witness :
    (add_bump P0 [0, 1/2, 1] [0, 0, 0] (1/2) 1 (1/10) BumpKind.G).getD 0 0 ≠ 0 :=
  (add_bump_gaussian_perturbs_all_points P0 [0, 1/2, 1] [0, 0, 0] (1/2) 1 (1/10)
    (fun _ => one_pos) one_ne_zero (by norm_num) (by norm_num)).2 0 (by norm_num)

/-! ### Claim C5 -/

/-- Claim C5: for coefficient lists whose natural maximum thickness is
positive, cst_foil with a (nonnegative) target thickness t and tail = 0
returns curves whose maximum of (upper minus lower) equals t exactly, and
its returned realized-thickness value equals t. -/
theorem cst_foil_realizes_target_thickness (P : NumPrims) (nn : ℕ)
    (coefU coefL : List ℚ) (xOpt : Option (List ℚ)) (t : ℚ)
    (hnn : 1 ≤ nn) (hx : ∀ xs, xOpt = some xs → xs.length = nn)
    (hnat : 0 < cst_foil_nat_thick P nn coefU coefL xOpt) (ht : 0 ≤ t) :
    npmax (List.zipWith (· - ·) (cst_foil P nn coefU coefL xOpt (some t) 0).2.1
      (cst_foil P nn coefU coefL xOpt (some t) 0).2.2.1) = t ∧
    (cst_foil P nn coefU coefL xOpt (some t) 0).2.2.2.1 = t := by
  have hlx : (cst_curve P nn coefU xOpt (1/2) 1).1.length = nn :=
    cst_curve_x_length P nn coefU xOpt (1/2) 1 hx
  have hlu : (cst_curve P nn coefU xOpt (1/2) 1).2.length = nn :=
    cst_curve_y_length P nn coefU xOpt (1/2) 1
  have hll : (cst_curve P nn coefL xOpt (1/2) 1).2.length = nn :=
    cst_curve_y_length P nn coefL xOpt (1/2) 1
  have hlth : (List.zipWith (· - ·) (cst_curve P nn coefU xOpt (1/2) 1).2
      (cst_curve P nn coefL xOpt (1/2) 1).2).length = nn := by
    rw [List.length_zipWith, hlu, hll, min_self]
  have hthne : List.zipWith (· - ·) (cst_curve P nn coefU xOpt (1/2) 1).2
      (cst_curve P nn coefL xOpt (1/2) 1).2 ≠ [] := by
    intro hc
    rw [hc] at hlth
    simp at hlth
    omega
  have hnat' : 0 < npmax (List.zipWith (· - ·) (cst_curve P nn coefU xOpt (1/2) 1).2
      (cst_curve P nn coefL xOpt (1/2) 1).2) := hnat
  have hmax := argmaxPair_getD _ hthne
  simp only [cst_foil, mul_zero, zero_mul, add_zero, sub_zero]
  rw [zipWith_snd_of_length_eq _ _ (by rw [hlx, List.length_map, hlu]),
    zipWith_snd_of_length_eq _ _ (by rw [hlx, List.length_map, hll])]
  rw [hmax, zipWith_sub_map_mul, npmax_map_mul _ _ (div_nonneg ht (le_of_lt hnat'))]
  exact ⟨div_mul_cancel₀ t (ne_of_gt hnat'), trivial⟩

set_option maxRecDepth 40000 in
/-- Witness for C5 at a concrete input: target thickness 3/25 is realized
exactly. -/
theorem cst_foil_realizes_target_thickness_witness :
    npmax (List.zipWith (· - ·)
      (cst_foil P0 3 [2/5] [-2/5] (some [0, 1/2, 1]) (some (3/25)) 0).2.1
      (cst_foil P0 3 [2/5] [-2/5] (some [0, 1/2, 1]) (some (3/25)) 0).2.2.1) = 3/25 ∧
    (cst_foil P0 3 [2/5] [-2/5] (some [0, 1/2, 1]) (some (3/25)) 0).2.2.2.1 = 3/25 :=
  cst_foil_realizes_target_thickness P0 3 [2/5] [-2/5] (some [0, 1/2, 1]) (3/25)
    (by omega) (fun xs h => by cases h; rfl) (by with_unfolding_all decide) (by norm_num)

theorem getD_zipWith_map_lt (f : ℚ → ℚ) (g : ℚ → ℚ → ℚ) (a b : List ℚ) (i : ℕ)
    (h1 : i < a.length) (h2 : i < b.length) :
    (List.zipWith g a (b.map f)).getD i 0 = g (a.getD i 0) (f (b.getD i 0)) := by
  rw [getD_zipWith_lt g a (b.map f) i 0 0 0 h1 (by simpa using h2),
    getD_map_lt f b i 0 0 h2]

/-! ### Claim C7 -/

/-- Claim C7: for every pair of coefficient lists, every thickness target and
every tail value, the airfoil returned by cst_foil on the default point
distribution has upper[0] = lower[0] = 0 (closed leading edge) and
upper[last] - lower[last] = tail exactly.  (The hypothesis on clustcos_dd
says the denominator of the normalized distribution is nonzero, which holds
for the real cosine.) -/
theorem cst_foil_closed_le_and_tail_gap (P : NumPrims) (nn : ℕ)
    (coefU coefL : List ℚ) (t : Option ℚ) (tail : ℚ) (hnn : 2 ≤ nn)
    (hdd : clustcos_dd P (79/10000) (24/25) 1 ≠ 0) :
    (cst_foil P nn coefU coefL none t tail).2.1.getD 0 0 = 0 ∧
    (cst_foil P nn coefU coefL none t tail).2.2.1.getD 0 0 = 0 ∧
    (cst_foil P nn coefU coefL none t tail).2.1.getD (nn - 1) 0 -
      (cst_foil P nn coefU coefL none t tail).2.2.1.getD (nn - 1) 0 = tail := by
  have hxl : (cst_curve P nn coefU none (1/2) 1).1.length = nn :=
    cst_curve_x_length P nn coefU none (1/2) 1 (fun xs h => by cases h)
  have hyu : (cst_curve P nn coefU none (1/2) 1).2.length = nn :=
    cst_curve_y_length P nn coefU none (1/2) 1
  have hyl : (cst_curve P nn coefL none (1/2) 1).2.length = nn :=
    cst_curve_y_length P nn coefL none (1/2) 1
  have hx0 : (cst_curve P nn coefU none (1/2) 1).1.getD 0 0 = 0 := by
    rw [cst_curve_x_none]
    exact default_dist_getD_zero P nn (by omega)
  have hx1 : (cst_curve P nn coefU none (1/2) 1).1.getD (nn - 1) 0 = 1 := by
    rw [cst_curve_x_none]
    exact default_dist_getD_last P nn hnn hdd
  have hu0 : (cst_curve P nn coefU none (1/2) 1).2.getD 0 0 = 0 :=
    cst_curve_getD_head P nn coefU none (1/2) 1 (by omega)
  have hl0 : (cst_curve P nn coefL none (1/2) 1).2.getD 0 0 = 0 :=
    cst_curve_getD_head P nn coefL none (1/2) 1 (by omega)
  have hu1 : (cst_curve P nn coefU none (1/2) 1).2.getD (nn - 1) 0 = 0 :=
    cst_curve_getD_last P nn coefU none (1/2) 1 (by omega)
  have hl1 : (cst_curve P nn coefL none (1/2) 1).2.getD (nn - 1) 0 = 0 :=
    cst_curve_getD_last P nn coefL none (1/2) 1 (by omega)
  have hpx : 0 < (cst_curve P nn coefU none (1/2) 1).1.length := by omega
  have hpu : 0 < (cst_curve P nn coefU none (1/2) 1).2.length := by omega
  have hpl : 0 < (cst_curve P nn coefL none (1/2) 1).2.length := by omega
  have hqx : nn - 1 < (cst_curve P nn coefU none (1/2) 1).1.length := by omega
  have hqu : nn - 1 < (cst_curve P nn coefU none (1/2) 1).2.length := by omega
  have hql : nn - 1 < (cst_curve P nn coefL none (1/2) 1).2.length := by omega
  cases t with
  | none =>
      simp only [cst_foil]
      refine ⟨?_, ?_, ?_⟩
      · rw [getD_zipWith_lt _ _ _ 0 0 0 0 hpx hpu, hx0, hu0]
        ring
      · rw [getD_zipWith_lt _ _ _ 0 0 0 0 hpx hpl, hx0, hl0]
        ring
      · rw [getD_zipWith_lt _ _ _ (nn - 1) 0 0 0 hqx hqu,
          getD_zipWith_lt _ _ _ (nn - 1) 0 0 0 hqx hql, hx1, hu1, hl1]
        ring
  | some tv =>
      simp only [cst_foil]
      refine ⟨?_, ?_, ?_⟩
      · rw [getD_zipWith_map_lt _ _ _ _ 0 hpx hpu, hx0, hu0]
        ring
      · rw [getD_zipWith_map_lt _ _ _ _ 0 hpx hpl, hx0, hl0]
        ring
      · rw [getD_zipWith_map_lt _ _ _ _ (nn - 1) hqx hqu,
          getD_zipWith_map_lt _ _ _ _ (nn - 1) hqx hql, hx1, hu1, hl1]
        ring

set_option maxRecDepth 40000 in
/-- Witness for C7 at a concrete input with tail 1/10. -/
theorem cst_foil_closed_le_and_tail_gap_witness :
    (cst_foil P0 3 [2/5] [-2/5] none none (1/10)).2.1.getD 0 0 = 0 ∧
    (cst_foil P0 3 [2/5] [-2/5] none none (1/10)).2.2.1.getD 0 0 = 0 ∧
    (cst_foil P0 3 [2/5] [-2/5] none none (1/10)).2.1.getD 2 0 -
      (cst_foil P0 3 [2/5] [-2/5] none none (1/10)).2.2.1.getD 2 0 = 1/10 :=
  cst_foil_closed_le_and_tail_gap P0 3 [2/5] [-2/5] none (1/10) (by omega)
    (by with_unfolding_all decide)

/-! ### Claim C1 -/

/-- Rule 1 of check_valid in isolation: negative thickness. -/
def rule1_flag (thickness : List ℚ) : ℕ :=
  if npmin thickness < 0 then 1 else 0

/-- Rule 2 of check_valid in isolation: maximum-thickness location. -/
def rule2_flag (x thickness : List ℚ) : ℕ :=
  if x.getD (argmaxPair thickness).1 0 < 15/100 ∨
     x.getD (argmaxPair thickness).1 0 > 75/100 then 1 else 0

/-- Rule 3 of check_valid in isolation: extreme points of thickness. -/
def rule3_flag (x thickness : List ℚ) : ℕ :=
  if (List.range (x.length - 2)).countP (fun i =>
      decide ((thickness.getD (i + 2) 0 - thickness.getD (i + 1) 0) *
        (thickness.getD i 0 - thickness.getD (i + 1) 0) ≥ 0)) > 2 then 1 else 0

/-- Rule 4 of check_valid in isolation: maximum curvature behind x = 0.1. -/
def rule4_flag (x curv_u curv_l : List ℚ) : ℕ :=
  if (List.range x.length).foldl (fun m i =>
      if x.getD i 0 < 1/10 then m else max m |curv_u.getD i 0|) 0 > 5 ∨
     (List.range x.length).foldl (fun m i =>
      if x.getD i 0 < 1/10 then m else max m |curv_l.getD i 0|) 0 > 5 then 1 else 0

/-- Rule 5 of check_valid in isolation: maximum camber within x in [0.2, 0.7]. -/
def rule5_flag (x camber : List ℚ) : ℕ :=
  if (List.range x.length).foldl (fun m i =>
      if x.getD i 0 < 2/10 ∨ x.getD i 0 > 7/10 then m
      else max m |camber.getD i 0|) 0 > 25/1000 then 1 else 0

/-- Rule 6 of check_valid in isolation: leading-edge radius consistency (the
second Python if wins when both fire, hence its condition is tested first). -/
def rule6_flag (RLE : ℚ) (thickness : List ℚ) : ℕ :=
  if RLE > 0 ∧ RLE / thickness.getD (argmaxPair thickness).1 0 < 1/10 then 1
  else if RLE > 0 ∧ RLE < 5/1000 then 1 else 0

/-- Rule 7 of check_valid in isolation: convex leading edge. -/
def rule7_flag (x yu yl thickness : List ℚ) : ℕ :=
  if yu.getD (x.length / 10 + 1) 0 / x.getD (x.length / 10 + 1) 0 /
      (thickness.getD (argmaxPair thickness).1 0 /
        x.getD (argmaxPair thickness).1 0) < 1 ∨
     -(yl.getD (x.length / 10 + 1) 0) / x.getD (x.length / 10 + 1) 0 /
      (thickness.getD (argmaxPair thickness).1 0 /
        x.getD (argmaxPair thickness).1 0) < 1 then 1 else 0

set_option maxHeartbeats 1600000 in
theorem updIf_chain10 (c1 c2 c3 c4 c5 c6a c6b c7 : Prop) [Decidable c1] [Decidable c2]
    [Decidable c3] [Decidable c4] [Decidable c5] [Decidable c6a] [Decidable c6b]
    [Decidable c7] :
    updIf c7 (updIf c6b (updIf c6a (updIf c5 (updIf c4 (updIf c3 (updIf c2
        (updIf c1 (List.replicate 10 0) 0) 1) 2) 3) 4) 5) 5) 6 =
      [if c1 then 1 else 0, if c2 then 1 else 0, if c3 then 1 else 0,
       if c4 then 1 else 0, if c5 then 1 else 0,
       if c6b then 1 else if c6a then 1 else 0, if c7 then 1 else 0, 0, 0, 0] := by
  unfold updIf
  split_ifs <;> rfl

theorem check_valid_length (P : NumPrims) (x yu yl : List ℚ) (RLE : ℚ) :
    (check_valid P x yu yl RLE).length = 10 := by
  simp only [check_valid]
  rw [updIf_chain10]
  rfl

/-- Claim C1 counterexample: on a 3-point airfoil, check_valid returns an
array of 10 entries (n_rule = 10 in the code), not an array of 7 entries as
the claim states. -/
theorem check_valid_length_counterexample :
    (check_valid P0 [0, 1/2, 1] [0, 1/10, 0] [0, -1/10, 0] 0).length = 10 ∧
    (check_valid P0 [0, 1/2, 1] [0, 1/10, 0] [0, -1/10, 0] 0).length ≠ 7 :=
  ⟨check_valid_length P0 [0, 1/2, 1] [0, 1/10, 0] [0, -1/10, 0] 0,
   by rw [check_valid_length]; omega⟩

/-- Claim C1 (amended): for every airfoil sample with at least 3 points,
check_valid returns the fixed-length array of 10 binary entries whose first
7 entries are exactly the 7 independent rule flags (0 = pass, 1 = fail, each
computed from its own rule regardless of the other rules' outcomes) and
whose last 3 entries are always-zero padding. -/
theorem check_valid_flags_decomposition (P : NumPrims) (x yu yl : List ℚ) (RLE : ℚ)
    (h3 : 3 ≤ x.length) (hyu : yu.length = x.length) (hyl : yl.length = x.length) :
    check_valid P x yu yl RLE =
      [rule1_flag (foil_tcc P x yu yl).1,
       rule2_flag x (foil_tcc P x yu yl).1,
       rule3_flag x (foil_tcc P x yu yl).1,
       rule4_flag x (foil_tcc P x yu yl).2.1 (foil_tcc P x yu yl).2.2.1,
       rule5_flag x (foil_tcc P x yu yl).2.2.2,
       rule6_flag RLE (foil_tcc P x yu yl).1,
       rule7_flag x yu yl (foil_tcc P x yu yl).1,
       0, 0, 0] := by
  simp only [check_valid]
  rw [updIf_chain10]
  simp only [rule1_flag, rule2_flag, rule3_flag, rule4_flag, rule5_flag,
    rule6_flag, rule7_flag]

set_option maxRecDepth 100000 in
/-- Witness for the amended C1 at a concrete 3-point airfoil. -/
theorem check_valid_flags_decomposition_witness :
    check_valid P0 [0, 1/2, 1] [0, 1/10, 0] [0, -1/10, 0] 0 =
      [rule1_flag (foil_tcc P0 [0, 1/2, 1] [0, 1/10, 0] [0, -1/10, 0]).1,
       rule2_flag [0, 1/2, 1] (foil_tcc P0 [0, 1/2, 1] [0, 1/10, 0] [0, -1/10, 0]).1,
       rule3_flag [0, 1/2, 1] (foil_tcc P0 [0, 1/2, 1] [0, 1/10, 0] [0, -1/10, 0]).1,
       rule4_flag [0, 1/2, 1] (foil_tcc P0 [0, 1/2, 1] [0, 1/10, 0] [0, -1/10, 0]).2.1
         (foil_tcc P0 [0, 1/2, 1] [0, 1/10, 0] [0, -1/10, 0]).2.2.1,
       rule5_flag [0, 1/2, 1] (foil_tcc P0 [0, 1/2, 1] [0, 1/10, 0] [0, -1/10, 0]).2.2.2,
       rule6_flag 0 (foil_tcc P0 [0, 1/2, 1] [0, 1/10, 0] [0, -1/10, 0]).1,
       rule7_flag [0, 1/2, 1] [0, 1/10, 0] [0, -1/10, 0]
         (foil_tcc P0 [0, 1/2, 1] [0, 1/10, 0] [0, -1/10, 0]).1,
       0, 0, 0] :=
  check_valid_flags_decomposition P0 [0, 1/2, 1] [0, 1/10, 0] [0, -1/10, 0] 0
    (by norm_num) (by norm_num) (by norm_num)

/-! ### Claim C2 -/

theorem foil_bump_modify_order0 (P : NumPrims) (x yu yl : List ℚ) (xc h s : ℚ)
    (side : Int) :
    foil_bump_modify P x yu yl xc h s side 0 =
      foil_bump_step P x (npmax (List.zipWith (· - ·) yu yl)) xc h s side (yu, yl) := rfl

/-- Claim C2 (amended): when side > 0 (and without the CST refit), the bump is
applied to the upper surface and the lower surface is uniformly rescaled so
that the thickness at the new argmax index returns exactly to the pre-bump
maximum thickness t0 (under the sign conditions yu_new[it] ≥ 0 > yl[it] that
make the |.|-based ratio meaningful).  On the side < 0 branch the code
instead overwrites the lower surface with a scaled copy of the bumped-upper
data, so no such conservation holds there (see the counterexample). -/
theorem foil_bump_modify_upper_conserves_argmax (P : NumPrims) (x yu yl : List ℚ)
    (xc h s : ℚ) (side : Int) (t0 : ℚ) (yuN : List ℚ) (it : ℕ)
    (hside : 0 < side)
    (ht0 : t0 = npmax (List.zipWith (· - ·) yu yl))
    (hyuN : yuN = add_bump P x yu xc (h * t0) s
      (if xc < 1/10 ∨ xc > 9/10 then BumpKind.H else BumpKind.G))
    (hit : it = (argmaxPair (List.zipWith (· - ·) yuN yl)).1)
    (hu : 0 ≤ yuN.getD it 0) (hl : yl.getD it 0 < 0) :
    (foil_bump_modify P x yu yl xc h s side 0).1.getD it 0 -
      (foil_bump_modify P x yu yl xc h s side 0).2.getD it 0 = t0 := by
  subst ht0
  subst hyuN
  subst hit
  rw [foil_bump_modify_order0]
  simp only [foil_bump_step, if_pos hside]
  have hblen : (argmaxPair (List.zipWith (· - ·)
      (add_bump P x yu xc (h * npmax (List.zipWith (· - ·) yu yl)) s
        (if xc < 1/10 ∨ xc > 9/10 then BumpKind.H else BumpKind.G)) yl)).1
      < yl.length :=
    lt_length_of_getD_ne yl _ 0 (ne_of_lt hl)
  rw [getD_map_lt _ _ _ 0 0 hblen]
  rw [abs_of_nonneg hu, abs_of_neg hl]
  have hbne : yl.getD (argmaxPair (List.zipWith (· - ·)
      (add_bump P x yu xc (h * npmax (List.zipWith (· - ·) yu yl)) s
        (if xc < 1/10 ∨ xc > 9/10 then BumpKind.H else BumpKind.G)) yl)).1 0 ≠ 0 :=
    ne_of_lt hl
  rw [div_neg, neg_mul, div_mul_cancel₀ _ hbne]
  ring

set_option maxRecDepth 100000 in
/-- Witness for the amended C2 at a concrete upper-side bump. -/
theorem foil_bump_modify_upper_conserves_argmax_witness :
    (foil_bump_modify P0 [0, 1/2, 1] [0, 1/10, 0] [0, -1/10, 0]
        (1/2) (1/2) (1/5) 1 0).1.getD 1 0 -
      (foil_bump_modify P0 [0, 1/2, 1] [0, 1/10, 0] [0, -1/10, 0]
        (1/2) (1/2) (1/5) 1 0).2.getD 1 0 = 1/5 :=
  foil_bump_modify_upper_conserves_argmax P0 [0, 1/2, 1] [0, 1/10, 0] [0, -1/10, 0]
    (1/2) (1/2) (1/5) 1 (1/5) [1/10, 1/5, 1/10] 1
    (by decide)
    (by with_unfolding_all decide)
    (by with_unfolding_all decide)
    (by with_unfolding_all decide)
    (by with_unfolding_all decide)
    (by with_unfolding_all decide)

set_option maxRecDepth 100000 in
/-- Claim C2 counterexample: on the side < 0 branch the maximum thickness is
not restored to t0.  Here the pre-bump maximum thickness is 1/5, the bump has
height 0 (so the bumped lower surface is unchanged), and yet the resulting
airfoil has maximum thickness 0, because the code assigns the scaled upper
surface to the lower surface. -/
theorem foil_bump_modify_lower_counterexample :
    npmax (List.zipWith (· - ·) [(0:ℚ), 1/10, 0] [0, -1/10, 0]) = 1/5 ∧
    npmax (List.zipWith (· - ·)
      (foil_bump_modify P0 [0, 1/2, 1] [0, 1/10, 0] [0, -1/10, 0]
        (1/2) 0 (1/5) (-1) 0).1
      (foil_bump_modify P0 [0, 1/2, 1] [0, 1/10, 0] [0, -1/10, 0]
        (1/2) 0 (1/5) (-1) 0).2) = 0 ∧
    (0 : ℚ) ≠ 1/5 := by
  refine ⟨by with_unfolding_all decide, by with_unfolding_all decide, by norm_num⟩

/-! ### Claim C3 -/

theorem hh_go_char (F : ℕ → ℚ) (s : ℚ) : ∀ (fuel pw : ℕ) (sp : ℚ), 100 ≤ fuel + pw →
    hh_go F s fuel pw sp =
      if pw < 100 ∧ sp > s then
        ((List.range' pw (100 - pw)).find? (fun q => decide (F q ≤ s))).elim 100
          (fun q => q + 1)
      else pw := by
  intro fuel
  induction fuel with
  | zero =>
      intro pw sp hf
      rw [hh_go, if_neg (fun hc => by omega)]
  | succ fuel ih =>
      intro pw sp hf
      rw [hh_go]
      by_cases hg : pw < 100 ∧ sp > s
      · rw [if_pos hg, if_pos hg, ih (pw + 1) (F pw) (by omega)]
        have hrange : List.range' pw (100 - pw) =
            pw :: List.range' (pw + 1) (100 - (pw + 1)) := by
          have h1 : 100 - pw = (100 - (pw + 1)) + 1 := by omega
          rw [h1, List.range'_succ]
        rw [hrange]
        by_cases hF : F pw ≤ s
        · have hfind : List.find? (fun q => decide (F q ≤ s))
              (pw :: List.range' (pw + 1) (100 - (pw + 1))) = some pw :=
            List.find?_cons_of_pos _ (by simpa using hF)
          rw [hfind]
          have hng : ¬ (pw + 1 < 100 ∧ F pw > s) := fun hc => absurd hF (not_le.mpr hc.2)
          rw [if_neg hng]
          rfl
        · have hfind : List.find? (fun q => decide (F q ≤ s))
              (pw :: List.range' (pw + 1) (100 - (pw + 1))) =
              List.find? (fun q => decide (F q ≤ s))
                (List.range' (pw + 1) (100 - (pw + 1))) :=
            List.find?_cons_of_neg _ (by simpa using hF)
          rw [hfind]
          by_cases hlt : pw + 1 < 100
          · rw [if_pos ⟨hlt, not_le.mp hF⟩]
          · have hpw : pw + 1 = 100 := by omega
            rw [if_neg (fun hc => hlt hc.1)]
            have h0 : 100 - (pw + 1) = 0 := by omega
            rw [h0, List.range'_zero, List.find?_nil]
            rw [hpw]
            rfl
      · rw [if_neg hg, if_neg hg]

theorem hh_pow_char (P : NumPrims) (xc s0 hm s : ℚ) :
    hh_pow P xc s0 hm s =
      if s < 1 then
        ((List.range' 1 99).find? (fun q => decide (hh_span P xc s0 hm q ≤ s))).elim 100
          (fun q => q + 1)
      else 1 := by
  rw [hh_pow, hh_go_char _ _ 100 1 1 (by omega)]
  by_cases hs : s < 1
  · rw [if_pos ⟨by omega, hs⟩, if_pos hs]
  · rw [if_neg (fun hc => hs hc.2), if_neg hs]

theorem add_bump_hicks_reduce (P : NumPrims) (x y : List ℚ) (xc h s : ℚ)
    (h0 : 0 < xc) (h1 : xc < 1) :
    add_bump P x y xc h s BumpKind.H = add_bump_hicks P x y xc h s := by
  rw [add_bump.eq_def, if_neg (by push_neg; exact ⟨h0, h1⟩)]

/-- Claim C3 (amended): the Hicks-Henne branch of add_bump applies
y[i] += h*sin(pi*x[i]^s0)^P with s0 = ln(0.5)/ln(xc), where P is ONE MORE
than the smallest integer power in [1, 99] whose scanned 1%-crossing span is
at most s (100 when no such power exists), and P = 1 without any search when
s ≥ 1 — the loop increments the power after the span test, so the applied
exponent overshoots the smallest satisfying power by one. -/
theorem add_bump_hicks_henne_power_characterization (P : NumPrims) (x y : List ℚ)
    (xc h s : ℚ) (h0 : 0 < xc) (h1 : xc < 1) :
    add_bump P x y xc h s BumpKind.H =
      (List.range x.length).map (fun i =>
        y.getD i 0 + h * (P.sinq (P.piq * P.powq (x.getD i 0)
          (P.logq (1/2) / P.logq xc))) ^
          (if s < 1 then
            ((List.range' 1 99).find? (fun q =>
              decide (hh_span P xc (P.logq (1/2) / P.logq xc) |h| q ≤ s))).elim 100
              (fun q => q + 1)
           else 1)) := by
  rw [add_bump_hicks_reduce P x y xc h s h0 h1, add_bump_hicks, hh_pow_char]

set_option maxRecDepth 100000 in
set_option maxHeartbeats 4000000 in
theorem hh_span_P1_pow1 : hh_span P1 (1/2) 1 1 1 = 99/100 := by
  norm_num [hh_span, P1, P0, tentQ, List.range_succ, List.foldl_append]

set_option maxRecDepth 100000 in
set_option maxHeartbeats 4000000 in
theorem hh_span_P1_pow2 : hh_span P1 (1/2) 1 1 2 = 9/10 := by
  norm_num [hh_span, P1, P0, tentQ, List.range_succ, List.foldl_append]

/-- Modelled from the claim wording of C3: the exponent would be the SMALLEST
integer power, starting at 1 and capped at 100, whose scanned span is at most
the target span s. -/
def hh_pow_claim (P : NumPrims) (xc s0 hm s : ℚ) : ℕ :=
  ((List.range' 1 100).find? (fun q => decide (hh_span P xc s0 hm q ≤ s))).elim 100
    (fun q => q)

/-- Modelled from the claim wording of C3: the Hicks-Henne bump that applies
the smallest satisfying power. -/
def add_bump_hh_claim (P : NumPrims) (x y : List ℚ) (xc h s : ℚ) : List ℚ :=
  (List.range x.length).map (fun i =>
    y.getD i 0 + h * (P.sinq (P.piq * P.powq (x.getD i 0)
      (P.logq (1/2) / P.logq xc))) ^ hh_pow_claim P xc (P.logq (1/2) / P.logq xc) |h| s)

set_option maxRecDepth 100000 in
set_option maxHeartbeats 1000000 in
/-- Claim C3 counterexample: with a concrete sine primitive (the tent map),
center 1/2 and target span 9/10, the smallest power whose span is at most
9/10 is 2, but the code applies power 3 — the output differs from the
smallest-power output claimed (1/8 versus 1/4 at the sample point 1/4). -/
theorem add_bump_hicks_smallest_power_counterexample :
    add_bump P1 [1/4] [0] (1/2) 1 (9/10) BumpKind.H = [1/8] ∧
    add_bump_hh_claim P1 [1/4] [0] (1/2) 1 (9/10) = [1/4] ∧
    ([(1:ℚ)/8] : List ℚ) ≠ [1/4] := by
  have hs0 : P1.logq (1/2) / P1.logq (1/2) = 1 := by norm_num [P1, P0]
  have hgt1 : (9:ℚ)/10 < hh_span P1 (1/2) 1 1 1 := by
    rw [hh_span_P1_pow1]
    norm_num
  have hle2 : hh_span P1 (1/2) 1 1 2 ≤ (9:ℚ)/10 := le_of_eq hh_span_P1_pow2
  refine ⟨?_, ?_, by norm_num⟩
  · rw [add_bump_hicks_reduce P1 [1/4] [0] (1/2) 1 (9/10) (by norm_num) (by norm_num)]
    simp only [add_bump_hicks, hs0, abs_one]
    rw [hh_pow_char]
    rw [if_pos (show (9:ℚ)/10 < 1 by norm_num)]
    rw [show List.range' 1 99 = 1 :: 2 :: List.range' 3 97 from rfl]
    have hfind : List.find? (fun q => decide (hh_span P1 (1/2) 1 1 q ≤ 9/10))
        (1 :: 2 :: List.range' 3 97) = some 2 := by
      rw [List.find?_cons_of_neg _ (by simpa using hgt1),
        List.find?_cons_of_pos _ (by simpa using hle2)]
    rw [hfind]
    norm_num [List.range_succ, P1, P0, tentQ, Option.elim]
  · simp only [add_bump_hh_claim, hh_pow_claim, hs0, abs_one]
    rw [show List.range' 1 100 = 1 :: 2 :: List.range' 3 98 from rfl]
    have hfind : List.find? (fun q => decide (hh_span P1 (1/2) 1 1 q ≤ 9/10))
        (1 :: 2 :: List.range' 3 98) = some 2 := by
      rw [List.find?_cons_of_neg _ (by simpa using hgt1),
        List.find?_cons_of_pos _ (by simpa using hle2)]
    rw [hfind]
    norm_num [List.range_succ, P1, P0, tentQ, Option.elim]

/-- Witness for the amended C3 at the concrete tent-map input. -/
theorem add_bump_hicks_henne_power_characterization_witness :
    add_bump P1 [1/4] [0] (1/2) 1 (9/10) BumpKind.H =
      (List.range ([(1:ℚ)/4].length)).map (fun i =>
        ([(0:ℚ)] : List ℚ).getD i 0 + 1 * (P1.sinq (P1.piq * P1.powq
          (([(1:ℚ)/4] : List ℚ).getD i 0) (P1.logq (1/2) / P1.logq (1/2)))) ^
          (if (9:ℚ)/10 < 1 then
            ((List.range' 1 99).find? (fun q =>
              decide (hh_span P1 (1/2) (P1.logq (1/2) / P1.logq (1/2))
                |(1:ℚ)| q ≤ 9/10))).elim 100 (fun q => q + 1)
           else 1)) :=
  add_bump_hicks_henne_power_characterization P1 [1/4] [0] (1/2) 1 (9/10)
    (by norm_num) (by norm_num)

/-! ### Claim C8 -/

theorem cst_foil_len (P : NumPrims) (nn : ℕ) (cu cl : List ℚ) (xOpt : Option (List ℚ))
    (t : Option ℚ) (tail : ℚ) (hx : ∀ xs, xOpt = some xs → xs.length = nn) :
    (cst_foil P nn cu cl xOpt t tail).1.length = nn ∧
    (cst_foil P nn cu cl xOpt t tail).2.1.length = nn ∧
    (cst_foil P nn cu cl xOpt t tail).2.2.1.length = nn := by
  have h1 := cst_curve_x_length P nn cu xOpt (1/2) 1 hx
  have h2 := cst_curve_y_length P nn cu xOpt (1/2) 1
  have h3 := cst_curve_y_length P nn cl xOpt (1/2) 1
  cases t with
  | none =>
      refine ⟨h1, ?_, ?_⟩
      · simp only [cst_foil]
        rw [List.length_zipWith, h1, h2]
        exact Nat.min_self nn
      · simp only [cst_foil]
        rw [List.length_zipWith, h1, h3]
        exact Nat.min_self nn
  | some tv =>
      refine ⟨h1, ?_, ?_⟩
      · simp only [cst_foil]
        rw [List.length_zipWith, List.length_map, h1, h2]
        exact Nat.min_self nn
      · simp only [cst_foil]
        rw [List.length_zipWith, List.length_map, h1, h3]
        exact Nat.min_self nn

theorem cst_foil_tail_zero_gap (P : NumPrims) (nn : ℕ) (cu cl : List ℚ)
    (xOpt : Option (List ℚ)) (t : Option ℚ) (hnn : 1 ≤ nn)
    (hx : ∀ xs, xOpt = some xs → xs.length = nn) :
    (cst_foil P nn cu cl xOpt t 0).2.1.getD (nn - 1) 0 = 0 ∧
    (cst_foil P nn cu cl xOpt t 0).2.2.1.getD (nn - 1) 0 = 0 := by
  have hxl := cst_curve_x_length P nn cu xOpt (1/2) 1 hx
  have hyu := cst_curve_y_length P nn cu xOpt (1/2) 1
  have hyl := cst_curve_y_length P nn cl xOpt (1/2) 1
  have hqx : nn - 1 < (cst_curve P nn cu xOpt (1/2) 1).1.length := by omega
  have hqu : nn - 1 < (cst_curve P nn cu xOpt (1/2) 1).2.length := by omega
  have hql : nn - 1 < (cst_curve P nn cl xOpt (1/2) 1).2.length := by omega
  have hu1 := cst_curve_getD_last P nn cu xOpt (1/2) 1 (by omega)
  have hl1 := cst_curve_getD_last P nn cl xOpt (1/2) 1 (by omega)
  cases t with
  | none =>
      simp only [cst_foil]
      constructor
      · rw [getD_zipWith_lt _ _ _ (nn - 1) 0 0 0 hqx hqu, hu1]
        ring
      · rw [getD_zipWith_lt _ _ _ (nn - 1) 0 0 0 hqx hql, hl1]
        ring
  | some tv =>
      simp only [cst_foil]
      constructor
      · rw [getD_zipWith_map_lt _ _ _ _ (nn - 1) hqx hqu, hu1]
        ring
      · rw [getD_zipWith_map_lt _ _ _ _ (nn - 1) hqx hql, hl1]
        ring

theorem foil_increment_zero_gap (P : NumPrims) (x yu yl cu cl : List ℚ) (t : ℚ)
    (hlu : yu.length = x.length) (hll : yl.length = x.length) (hx1 : 1 ≤ x.length)
    (hgap : yu.getD (yu.length - 1) 0 - yl.getD (yl.length - 1) 0 = 0)
    (ht : 0 ≤ t)
    (htn : 0 < foil_increment_tnew P x yu yl cu cl) :
    npmax (List.zipWith (· - ·) (foil_increment P x yu yl cu cl (some t)).1
      (foil_increment P x yu yl cu cl (some t)).2) = t ∧
    (foil_increment P x yu yl cu cl (some t)).1.length = x.length ∧
    (foil_increment P x yu yl cu cl (some t)).2.length = x.length ∧
    (foil_increment P x yu yl cu cl (some t)).1.getD
        ((foil_increment P x yu yl cu cl (some t)).1.length - 1) 0 -
      (foil_increment P x yu yl cu cl (some t)).2.getD
        ((foil_increment P x yu yl cu cl (some t)).2.length - 1) 0 = 0 := by
  have hlui : (cst_curve P x.length cu (some x) (1/2) 1).2.length = x.length :=
    cst_curve_y_length P x.length cu (some x) (1/2) 1
  have hlli : (cst_curve P x.length cl (some x) (1/2) 1).2.length = x.length :=
    cst_curve_y_length P x.length cl (some x) (1/2) 1
  have hl2u : (List.zipWith (· + ·) yu (cst_curve P x.length cu (some x) (1/2) 1).2).length
      = x.length := by
    rw [List.length_zipWith, hlu, hlui]
    exact Nat.min_self x.length
  have hl2l : (List.zipWith (· + ·) yl (cst_curve P x.length cl (some x) (1/2) 1).2).length
      = x.length := by
    rw [List.length_zipWith, hll, hlli]
    exact Nat.min_self x.length
  have hlth : (List.zipWith (· - ·)
      (List.zipWith (· + ·) yu (cst_curve P x.length cu (some x) (1/2) 1).2)
      (List.zipWith (· + ·) yl (cst_curve P x.length cl (some x) (1/2) 1).2)).length
      = x.length := by
    rw [List.length_zipWith, hl2u, hl2l]
    exact Nat.min_self x.length
  have hthne : List.zipWith (· - ·)
      (List.zipWith (· + ·) yu (cst_curve P x.length cu (some x) (1/2) 1).2)
      (List.zipWith (· + ·) yl (cst_curve P x.length cl (some x) (1/2) 1).2) ≠ [] := by
    intro hc
    rw [hc] at hlth
    simp at hlth
    omega
  have hnat' : 0 < npmax (List.zipWith (· - ·)
      (List.zipWith (· + ·) yu (cst_curve P x.length cu (some x) (1/2) 1).2)
      (List.zipWith (· + ·) yl (cst_curve P x.length cl (some x) (1/2) 1).2)) := htn
  have hmax := argmaxPair_getD _ hthne
  have hqu : x.length - 1 < yu.length := by omega
  have hql : x.length - 1 < yl.length := by omega
  have hq2u : x.length - 1 <
      (List.zipWith (· + ·) yu (cst_curve P x.length cu (some x) (1/2) 1).2).length := by
    omega
  have hq2l : x.length - 1 <
      (List.zipWith (· + ·) yl (cst_curve P x.length cl (some x) (1/2) 1).2).length := by
    omega
  have hiu := cst_curve_getD_last P x.length cu (some x) (1/2) 1 (by omega)
  have hil := cst_curve_getD_last P x.length cl (some x) (1/2) 1 (by omega)
  simp only [foil_increment, hgap, gt_iff_lt, lt_self_iff_false, if_false, zero_mul,
    sub_zero]
  refine ⟨?_, ?_, ?_, ?_⟩
  · rw [hmax, zipWith_sub_map_mul, npmax_map_mul _ _ (div_nonneg ht (le_of_lt hnat'))]
    exact div_mul_cancel₀ t (ne_of_gt hnat')
  · rw [List.length_map, hl2u]
  · rw [List.length_map, hl2l]
  · rw [List.length_map, List.length_map, hl2u, hl2l]
    rw [getD_map_lt _ _ _ 0 0 (by omega), getD_map_lt _ _ _ 0 0 (by omega)]
    rw [getD_zipWith_lt _ _ _ (x.length - 1) 0 0 0 hqu (by omega)]
    rw [getD_zipWith_lt _ _ _ (x.length - 1) 0 0 0 hql (by omega)]
    rw [hiu, hil]
    rw [hlu, hll] at hgap
    rw [show yu.getD (x.length - 1) 0 + 0 = yu.getD (x.length - 1) 0 by ring,
      show yl.getD (x.length - 1) 0 + 0 = yl.getD (x.length - 1) 0 by ring]
    rw [← mul_sub, hgap, mul_zero]

/-- Claim C8 (amended): with tail = 0, applying foil_increment and then
removing the same increment (negated coefficients) under the same thickness
target t does NOT return the original curves pointwise (the increment is
removed unscaled from curves that were rescaled, leaving a residual — see the
counterexample); what the round trip does restore is the thickness
constraint: each of the two applications yields curves whose maximum of
(upper minus lower) is exactly t, so the round-tripped airfoil agrees with
the original in maximum thickness and trailing-edge gap, not pointwise. -/
theorem foil_increment_roundtrip_max_thickness (P : NumPrims) (nn : ℕ)
    (cu0 cl0 : List ℚ) (xOpt : Option (List ℚ)) (t : ℚ) (cu cl : List ℚ)
    (B : List ℚ × List ℚ × List ℚ × ℚ × ℚ) (F G : List ℚ × List ℚ)
    (hnn : 1 ≤ nn) (hx : ∀ xs, xOpt = some xs → xs.length = nn) (ht : 0 ≤ t)
    (hB : B = cst_foil P nn cu0 cl0 xOpt (some t) 0)
    (hF : F = foil_increment P B.1 B.2.1 B.2.2.1 cu cl (some t))
    (hG : G = foil_increment P B.1 F.1 F.2 (cu.map (fun c => -c))
      (cl.map (fun c => -c)) (some t))
    (hpos1 : 0 < foil_increment_tnew P B.1 B.2.1 B.2.2.1 cu cl)
    (hpos2 : 0 < foil_increment_tnew P B.1 F.1 F.2 (cu.map (fun c => -c))
      (cl.map (fun c => -c))) :
    npmax (List.zipWith (· - ·) F.1 F.2) = t ∧
    npmax (List.zipWith (· - ·) G.1 G.2) = t := by
  obtain ⟨hBx, hBu, hBl⟩ := cst_foil_len P nn cu0 cl0 xOpt (some t) 0 hx
  rw [← hB] at hBx hBu hBl
  obtain ⟨hg1, hg2⟩ := cst_foil_tail_zero_gap P nn cu0 cl0 xOpt (some t) hnn hx
  rw [← hB] at hg1 hg2
  have hgapB : B.2.1.getD (B.2.1.length - 1) 0 - B.2.2.1.getD (B.2.2.1.length - 1) 0 = 0 := by
    rw [hBu, hBl, hg1, hg2]
    ring
  have h1 := foil_increment_zero_gap P B.1 B.2.1 B.2.2.1 cu cl t
    (by omega) (by omega) (by omega) hgapB ht hpos1
  rw [← hF] at h1
  obtain ⟨hmax1, hlF1, hlF2, hgapF⟩ := h1
  have h2 := foil_increment_zero_gap P B.1 F.1 F.2 (cu.map (fun c => -c))
    (cl.map (fun c => -c)) t (by omega) (by omega) (by omega) hgapF ht hpos2
  rw [← hG] at h2
  exact ⟨hmax1, h2.1⟩

set_option maxRecDepth 100000 in
/-- Witness for the amended C8 at a concrete input: both the increment and
its negated removal restore maximum thickness 1/5. -/
theorem foil_increment_roundtrip_max_thickness_witness :
    npmax (List.zipWith (· - ·)
      (foil_increment P0
        (cst_foil P0 3 [2/5] [-2/5] (some [0, 1/2, 1]) (some (1/5)) 0).1
        (cst_foil P0 3 [2/5] [-2/5] (some [0, 1/2, 1]) (some (1/5)) 0).2.1
        (cst_foil P0 3 [2/5] [-2/5] (some [0, 1/2, 1]) (some (1/5)) 0).2.2.1
        [2/5] [0] (some (1/5))).1
      (foil_increment P0
        (cst_foil P0 3 [2/5] [-2/5] (some [0, 1/2, 1]) (some (1/5)) 0).1
        (cst_foil P0 3 [2/5] [-2/5] (some [0, 1/2, 1]) (some (1/5)) 0).2.1
        (cst_foil P0 3 [2/5] [-2/5] (some [0, 1/2, 1]) (some (1/5)) 0).2.2.1
        [2/5] [0] (some (1/5))).2) = 1/5 ∧
    npmax (List.zipWith (· - ·)
      (foil_increment P0
        (cst_foil P0 3 [2/5] [-2/5] (some [0, 1/2, 1]) (some (1/5)) 0).1
        (foil_increment P0
          (cst_foil P0 3 [2/5] [-2/5] (some [0, 1/2, 1]) (some (1/5)) 0).1
          (cst_foil P0 3 [2/5] [-2/5] (some [0, 1/2, 1]) (some (1/5)) 0).2.1
          (cst_foil P0 3 [2/5] [-2/5] (some [0, 1/2, 1]) (some (1/5)) 0).2.2.1
          [2/5] [0] (some (1/5))).1
        (foil_increment P0
          (cst_foil P0 3 [2/5] [-2/5] (some [0, 1/2, 1]) (some (1/5)) 0).1
          (cst_foil P0 3 [2/5] [-2/5] (some [0, 1/2, 1]) (some (1/5)) 0).2.1
          (cst_foil P0 3 [2/5] [-2/5] (some [0, 1/2, 1]) (some (1/5)) 0).2.2.1
          [2/5] [0] (some (1/5))).2
        ([(2:ℚ)/5].map (fun c => -c)) ([(0:ℚ)].map (fun c => -c)) (some (1/5))).1
      (foil_increment P0
        (cst_foil P0 3 [2/5] [-2/5] (some [0, 1/2, 1]) (some (1/5)) 0).1
        (foil_increment P0
          (cst_foil P0 3 [2/5] [-2/5] (some [0, 1/2, 1]) (some (1/5)) 0).1
          (cst_foil P0 3 [2/5] [-2/5] (some [0, 1/2, 1]) (some (1/5)) 0).2.1
          (cst_foil P0 3 [2/5] [-2/5] (some [0, 1/2, 1]) (some (1/5)) 0).2.2.1
          [2/5] [0] (some (1/5))).1
        (foil_increment P0
          (cst_foil P0 3 [2/5] [-2/5] (some [0, 1/2, 1]) (some (1/5)) 0).1
          (cst_foil P0 3 [2/5] [-2/5] (some [0, 1/2, 1]) (some (1/5)) 0).2.1
          (cst_foil P0 3 [2/5] [-2/5] (some [0, 1/2, 1]) (some (1/5)) 0).2.2.1
          [2/5] [0] (some (1/5))).2
        ([(2:ℚ)/5].map (fun c => -c)) ([(0:ℚ)].map (fun c => -c)) (some (1/5))).2)
      = 1/5 :=
  foil_increment_roundtrip_max_thickness P0 3 [2/5] [-2/5] (some [0, 1/2, 1]) (1/5)
    [2/5] [0]
    (cst_foil P0 3 [2/5] [-2/5] (some [0, 1/2, 1]) (some (1/5)) 0)
    (foil_increment P0
      (cst_foil P0 3 [2/5] [-2/5] (some [0, 1/2, 1]) (some (1/5)) 0).1
      (cst_foil P0 3 [2/5] [-2/5] (some [0, 1/2, 1]) (some (1/5)) 0).2.1
      (cst_foil P0 3 [2/5] [-2/5] (some [0, 1/2, 1]) (some (1/5)) 0).2.2.1
      [2/5] [0] (some (1/5)))
    (foil_increment P0
      (cst_foil P0 3 [2/5] [-2/5] (some [0, 1/2, 1]) (some (1/5)) 0).1
      (foil_increment P0
        (cst_foil P0 3 [2/5] [-2/5] (some [0, 1/2, 1]) (some (1/5)) 0).1
        (cst_foil P0 3 [2/5] [-2/5] (some [0, 1/2, 1]) (some (1/5)) 0).2.1
        (cst_foil P0 3 [2/5] [-2/5] (some [0, 1/2, 1]) (some (1/5)) 0).2.2.1
        [2/5] [0] (some (1/5))).1
      (foil_increment P0
        (cst_foil P0 3 [2/5] [-2/5] (some [0, 1/2, 1]) (some (1/5)) 0).1
        (cst_foil P0 3 [2/5] [-2/5] (some [0, 1/2, 1]) (some (1/5)) 0).2.1
        (cst_foil P0 3 [2/5] [-2/5] (some [0, 1/2, 1]) (some (1/5)) 0).2.2.1
        [2/5] [0] (some (1/5))).2
      ([(2:ℚ)/5].map (fun c => -c)) ([(0:ℚ)].map (fun c => -c)) (some (1/5)))
    (by omega) (fun xs h => by cases h; rfl) (by norm_num) rfl rfl rfl
    (by with_unfolding_all decide) (by with_unfolding_all decide)

set_option maxRecDepth 100000 in
/-- Claim C8 counterexample: starting from the cst_foil baseline with target
thickness 1/5 and tail 0, adding the increment [2/5] (upper) and then
removing it (negated coefficients, same target) does not return the original
upper curve: the baseline upper curve is [0, 1/10, 0] but the round trip
yields [0, 1/15, 0]. -/
theorem foil_increment_roundtrip_counterexample :
    (cst_foil P0 3 [2/5] [-2/5] (some [0, 1/2, 1]) (some (1/5)) 0).2.1 = [0, 1/10, 0] ∧
    (foil_increment P0
      (cst_foil P0 3 [2/5] [-2/5] (some [0, 1/2, 1]) (some (1/5)) 0).1
      (foil_increment P0
        (cst_foil P0 3 [2/5] [-2/5] (some [0, 1/2, 1]) (some (1/5)) 0).1
        (cst_foil P0 3 [2/5] [-2/5] (some [0, 1/2, 1]) (some (1/5)) 0).2.1
        (cst_foil P0 3 [2/5] [-2/5] (some [0, 1/2, 1]) (some (1/5)) 0).2.2.1
        [2/5] [0] (some (1/5))).1
      (foil_increment P0
        (cst_foil P0 3 [2/5] [-2/5] (some [0, 1/2, 1]) (some (1/5)) 0).1
        (cst_foil P0 3 [2/5] [-2/5] (some [0, 1/2, 1]) (some (1/5)) 0).2.1
        (cst_foil P0 3 [2/5] [-2/5] (some [0, 1/2, 1]) (some (1/5)) 0).2.2.1
        [2/5] [0] (some (1/5))).2
      ([(2:ℚ)/5].map (fun c => -c)) ([(0:ℚ)].map (fun c => -c)) (some (1/5))).1
      ≠ (cst_foil P0 3 [2/5] [-2/5] (some [0, 1/2, 1]) (some (1/5)) 0).2.1 := by
  constructor <;> with_unfolding_all decide

/-! ### Claim C4 -/

theorem cst_foil_t1_some (P : NumPrims) (nn : ℕ) (cu cl : List ℚ)
    (xOpt : Option (List ℚ)) (tv tail : ℚ) :
    (cst_foil P nn cu cl xOpt (some tv) tail).2.2.2.1 = tv := rfl

theorem cst_foil_natural_idem (P : NumPrims) (nn : ℕ) (cu cl : List ℚ)
    (xOpt : Option (List ℚ)) (hnn : 1 ≤ nn)
    (hx : ∀ xs, xOpt = some xs → xs.length = nn)
    (hz : cst_foil_nat_thick P nn cu cl xOpt ≠ 0) :
    cst_foil P nn cu cl xOpt (some ((cst_foil P nn cu cl xOpt none 0).2.2.2.1)) 0 =
      cst_foil P nn cu cl xOpt none 0 := by
  have hlu := cst_curve_y_length P nn cu xOpt (1/2) 1
  have hll := cst_curve_y_length P nn cl xOpt (1/2) 1
  have hlth : (List.zipWith (· - ·) (cst_curve P nn cu xOpt (1/2) 1).2
      (cst_curve P nn cl xOpt (1/2) 1).2).length = nn := by
    rw [List.length_zipWith, hlu, hll]
    exact Nat.min_self nn
  have hthne : List.zipWith (· - ·) (cst_curve P nn cu xOpt (1/2) 1).2
      (cst_curve P nn cl xOpt (1/2) 1).2 ≠ [] := by
    intro hc
    rw [hc] at hlth
    simp at hlth
    omega
  have hne : (List.zipWith (· - ·) (cst_curve P nn cu xOpt (1/2) 1).2
      (cst_curve P nn cl xOpt (1/2) 1).2).getD
        (argmaxPair (List.zipWith (· - ·) (cst_curve P nn cu xOpt (1/2) 1).2
          (cst_curve P nn cl xOpt (1/2) 1).2)).1 0 ≠ 0 := by
    rw [argmaxPair_getD _ hthne]
    exact hz
  simp only [cst_foil, zero_mul, sub_zero]
  rw [div_self hne]
  simp only [one_mul, List.map_id']

/-- Unfolding of Section.foil at cstU = cstL = none, with the geometric part
kept abstract behind section_foil_core. -/
theorem Section_foil_eq (P : NumPrims) (s : Section) (nn : ℕ) (fx : Bool) :
    Section.foil P s none none nn fx =
      (let core := section_foil_core P s.xLE s.yLE s.zLE s.chord s.twist
        s.refine_fixed_t s.refine_u s.refine_l nn fx
        (cst_foil P nn s.cst_u s.cst_l none s.thick s.tail)
      { s with
        xx := core.1
        yu := core.2.1
        yl := core.2.2.1
        thick := some core.2.2.2.1
        RLE := core.2.2.2.2.1
        x := core.2.2.2.2.2.1
        y := core.2.2.2.2.2.2.1
        z := core.2.2.2.2.2.2.2 }) := rfl

/-- Congruence for Section.foil without explicit coefficient arguments: the
result only depends on the placement, coefficient and refinement fields, with
the thickness/tail dependence going through the cst_foil call. -/
theorem Section_foil_congr (P : NumPrims) (a b : Section) (nn : ℕ) (fx : Bool)
    (h1 : a.xLE = b.xLE) (h2 : a.yLE = b.yLE) (h3 : a.zLE = b.zLE)
    (h4 : a.chord = b.chord) (h5 : a.twist = b.twist) (h6 : a.tail = b.tail)
    (h7 : a.cst_u = b.cst_u) (h8 : a.cst_l = b.cst_l)
    (h9 : a.refine_fixed_t = b.refine_fixed_t) (h10 : a.refine_u = b.refine_u)
    (h11 : a.refine_l = b.refine_l)
    (hcst : cst_foil P nn a.cst_u a.cst_l none a.thick a.tail =
      cst_foil P nn b.cst_u b.cst_l none b.thick b.tail) :
    Section.foil P a none none nn fx = Section.foil P b none none nn fx := by
  cases a
  cases b
  dsimp only at h1 h2 h3 h4 h5 h6 h7 h8 h9 h10 h11 hcst
  subst h1 h2 h3 h4 h5 h6 h7 h8 h9 h10 h11
  rw [Section_foil_eq, Section_foil_eq]
  dsimp only
  rw [hcst]

set_option maxHeartbeats 1600000 in
/-- Claim C4 (amended): Section.foil is idempotent whenever the Section's
thickness target is set, or when its tail is 0 and the natural maximum
thickness of its coefficients is nonzero.  (When thick is None and tail ≠ 0
the first call stores the natural thickness into thick and the second call
then applies a thickness constraint that interacts with the tail wedge,
changing the derived state — see the counterexample.) -/
theorem Section_foil_idempotent (P : NumPrims) (s : Section) (nn : ℕ) (fx : Bool)
    (h : s.thick.isSome = true ∨
      (s.tail = 0 ∧ 1 ≤ nn ∧ cst_foil_nat_thick P nn s.cst_u s.cst_l none ≠ 0)) :
    Section.foil P (Section.foil P s none none nn fx) none none nn fx =
      Section.foil P s none none nn fx := by
  apply Section_foil_congr P (Section.foil P s none none nn fx) s nn fx rfl rfl rfl rfl
    rfl rfl rfl rfl rfl rfl rfl
  rw [show (Section.foil P s none none nn fx).cst_u = s.cst_u from rfl,
    show (Section.foil P s none none nn fx).cst_l = s.cst_l from rfl,
    show (Section.foil P s none none nn fx).tail = s.tail from rfl,
    show (Section.foil P s none none nn fx).thick =
      some ((cst_foil P nn s.cst_u s.cst_l none s.thick s.tail).2.2.2.1) from rfl]
  rcases h with hA | ⟨htail, hnn, hz⟩
  · obtain ⟨tv, htv⟩ := Option.isSome_iff_exists.mp hA
    rw [htv, cst_foil_t1_some]
  · cases htv : s.thick with
    | none =>
        rw [htail]
        exact cst_foil_natural_idem P nn s.cst_u s.cst_l none hnn
          (fun xs hxs => by cases hxs) hz
    | some tv =>
        rw [cst_foil_t1_some]

/-- A Section with an explicit thickness target, for the C4 witness. -/
def sectionWithThick : Section :=
  { xLE := 0, yLE := 0, zLE := 0, chord := 1, twist := 0, thick := some (1/5),
    tail := 1/10, RLE := 0, cst_u := [2/5], cst_l := [-2/5], xx := [], yu := [],
    yl := [], x := [], y := [], z := [], refine_fixed_t := true, refine_u := none,
    refine_l := none }

/-- Witness for the amended C4: with the thickness target set, a second
foil() call reproduces the whole Section state. -/
theorem Section_foil_idempotent_witness :
    Section.foil P0 (Section.foil P0 sectionWithThick none none 3 false)
        none none 3 false =
      Section.foil P0 sectionWithThick none none 3 false :=
  Section_foil_idempotent P0 sectionWithThick 3 false (Or.inl rfl)

/-- A Section with thick = None and a nonzero tail, for the C4
counterexample. -/
def sectionNoThick : Section :=
  { xLE := 0, yLE := 0, zLE := 0, chord := 1, twist := 0, thick := none,
    tail := 1/10, RLE := 0, cst_u := [2/5], cst_l := [-2/5], xx := [], yu := [],
    yl := [], x := [], y := [], z := [], refine_fixed_t := true, refine_u := none,
    refine_l := none }

set_option maxRecDepth 100000 in
/-- Claim C4 counterexample: with thick = None and tail = 1/10, the second
foil() call yields a different upper curve than the first (the first call
stores the natural thickness 1/5 into thick; the second call then rescales
by (1/5 - (1/10)*(1/2))/(1/5) = 3/4 before re-adding the tail wedge). -/
theorem Section_foil_not_idempotent_counterexample :
    (Section.foil P0 (Section.foil P0 sectionNoThick none none 3 false)
        none none 3 false).yu
      ≠ (Section.foil P0 sectionNoThick none none 3 false).yu := by
  with_unfolding_all decide
